import Mathlib

/-
Verification development for the LinkedIn lead-automation backend
(`main.py`, `schemas.py`).

The code is shallowly embedded: Python strings become `List Char`,
MongoDB collections become Lean lists of typed documents, timestamps
become `Int` seconds (so `timedelta(minutes=m)` is `60 * m` and three
days is `259200`), and every call to the `random` module reads the next
value from an explicit oracle `rand : Nat → Nat`, with
`random.randint(a, b)` modelled as `a + rand k % (b - a + 1)` so that
the drawn value always lies in `[a, b]`.
-/

namespace LeadAuto

/-- Python strings are modelled as lists of characters. -/
abbrev Str := List Char

/-- One scanning step of Python `str.replace`, with explicit fuel.
`replaceAllGo pat rep fuel s` scans `s` left to right; whenever `pat`
is a (non-empty) prefix of the rest it emits `rep` and skips `pat`,
otherwise it keeps one character.  Each step consumes at least one
character and one unit of fuel, so fuel `s.length` always suffices. -/
def replaceAllGo (pat rep : Str) : Nat → Str → Str
  | _, [] => []
  | 0, s => s
  | fuel + 1, c :: cs =>
    if !pat.isEmpty && pat.isPrefixOf (c :: cs) then
      rep ++ replaceAllGo pat rep fuel ((c :: cs).drop pat.length)
    else
      c :: replaceAllGo pat rep fuel cs

/-- Python `s.replace(pat, rep)` (for the non-empty patterns this
program uses): every occurrence of `pat` in `s`, scanning left to
right, is replaced by `rep`. -/
def replaceAll (s pat rep : Str) : Str :=
  replaceAllGo pat rep s.length s

/-- Predicate `occursIn pat s` is true when `pat` occurs as a contiguous
substring of `s` (Python `pat in s`). -/
def occursIn (pat : Str) : Str → Bool
  | [] => pat.isEmpty
  | c :: cs => pat.isPrefixOf (c :: cs) || occursIn pat cs

/-- From `main.py` line 55: the placeholder token `f"{{{{{key}}}}}"`, that
is `"{{" + key + "}}"`. -/
def tok (key : Str) : Str := "\x7b\x7b".data ++ key ++ "\x7d\x7d".data

/-- The four prospect fields `render_template` reads
(`data.get(..., "")`); a stored Python `None` and a missing key are
both `none` here. -/
structure RenderData where
  first_name : Option Str
  company_name : Option Str
  job_title : Option Str
  personalized_line : Option Str
deriving DecidableEq

/-- Python `str(value or "")` applied to a `data.get(key, "")` result:
a missing key, a stored `None` and an empty string all yield `""`. -/
def pyStr : Option Str → Str
  | none => []
  | some s => if s.isEmpty then [] else s

/-- The key/value association iterated by `render_template`
(`main.py` lines 49-54), in Python dict insertion order. -/
def renderPairs (data : RenderData) : List (Str × Option Str) :=
  [("First Name".data, data.first_name),
   ("Company Name".data, data.company_name),
   ("Job Title".data, data.job_title),
   ("Personalized Line".data, data.personalized_line)]

/-- The helper `render_template` (`main.py` lines 47-56): one `str.replace` pass
per known placeholder, in the fixed dict order. -/
def render_template (template : Str) (data : RenderData) : Str :=
  (renderPairs data).foldl
    (fun t kv => replaceAll t (tok kv.1) (pyStr kv.2)) template

/-- Fuel-driven simultaneous substitution: scan the string once and,
at each position, replace the first matching (non-empty) pattern of
`pairs`, leaving everything else untouched. -/
def substSimulGo (pairs : List (Str × Str)) : Nat → Str → Str
  | _, [] => []
  | 0, s => s
  | fuel + 1, c :: cs =>
    match pairs.find? (fun pr => !pr.1.isEmpty && pr.1.isPrefixOf (c :: cs)) with
    | some pr => pr.2 ++ substSimulGo pairs fuel ((c :: cs).drop pr.1.length)
    | none => c :: substSimulGo pairs fuel cs

/-- Simultaneous substitution of a pattern/replacement list. -/
def substSimul (pairs : List (Str × Str)) (s : Str) : Str :=
  substSimulGo pairs s.length s

/-- Modelled from the spec: the specification's reading of template
rendering, in which every literal occurrence of the four placeholder
tokens present in the template is replaced — simultaneously, in one
scan — by the corresponding field value coerced to text, and all other
text (in particular any unknown placeholder) is left unchanged.  Used
only to compare the spec's words with `render_template`. -/
def renderSimul (template : Str) (data : RenderData) : Str :=
  substSimul ((renderPairs data).map (fun kv => (tok kv.1, pyStr kv.2))) template

/-- A pattern that does not occur in `s` is not a prefix of `s`. -/
theorem not_isPrefixOf_of_occursIn_eq_false {pat s : Str}
    (h : occursIn pat s = false) : pat.isPrefixOf s = false := by
  cases s with
  | nil =>
    cases pat with
    | nil => simp [occursIn] at h
    | cons p ps => rfl
  | cons c cs =>
    simp [occursIn] at h
    exact h.1

/-- Python `str.replace` leaves a string without any occurrence of the
pattern unchanged. -/
theorem replaceAll_of_not_occurs {pat : Str} (rep : Str) :
    ∀ s : Str, occursIn pat s = false → replaceAll s pat rep = s := by
  intro s
  induction s with
  | nil => intro _; rfl
  | cons c cs ih =>
    intro h
    simp [occursIn] at h
    have hpre : pat.isPrefixOf (c :: cs) = false := h.1
    have htail : occursIn pat cs = false := h.2
    simp [replaceAll, replaceAllGo, hpre]
    exact ih htail

/-! ## Data model

One structure per MongoDB collection document, with timestamps in
`Int` seconds and document object ids as `Nat`. -/

/-- A `campaign` collection document (`main.py` lines 111-116). -/
structure CampaignDoc where
  _id : Nat
  name : Str
  description : Option Str
  created_at : Int
  updated_at : Int
deriving DecidableEq

/-- A `company` collection document (`main.py` lines 141-147). -/
structure CompanyDoc where
  campaign_id : String
  company_name : Str
  linkedin_url : Str
  created_at : Int
  updated_at : Int
deriving DecidableEq

/-- A `template` collection document (`main.py` lines 161-169). -/
structure TemplateDoc where
  campaign_id : String
  connection_template : Str
  followup_template : Str
  created_at : Int
  updated_at : Int
deriving DecidableEq

/-- A `prospect` collection document (`main.py` lines 196-208). -/
structure ProspectDoc where
  _id : Nat
  campaign_id : String
  company_name : Option Str
  first_name : Str
  last_name : Str
  job_title : Option Str
  profile_url : Option Str
  personalized_line : Option Str
  status : String
  created_at : Int
  updated_at : Int
  last_action_at : Option Int
deriving DecidableEq

/-- A `messagelog` collection document (`main.py` lines 260-268,
282-290); `prospect_id` keeps the referenced prospect's object id. -/
structure MessageLogDoc where
  campaign_id : String
  prospect_id : Nat
  type : String
  status : String
  scheduled_at : Int
  sent_at : Int
  content : Str
deriving DecidableEq

/-- The whole document store: the five named collections. -/
structure DB where
  campaigns : List CampaignDoc
  companies : List CompanyDoc
  templates : List TemplateDoc
  prospects : List ProspectDoc
  messagelogs : List MessageLogDoc
deriving DecidableEq

/-! ## Generic helpers -/

/-- Mongo `update_one`: apply `f` to the first element satisfying
`pr`, leave everything else alone. -/
def updateFirst (pr : α → Bool) (f : α → α) : List α → List α
  | [] => []
  | x :: xs => if pr x then f x :: xs else x :: updateFirst pr f xs

/-- Mongo `find_one({"_id": pid})` on a prospect list. -/
def findById (l : List ProspectDoc) (pid : Nat) : Option ProspectDoc :=
  l.find? (fun q => decide (q._id = pid))

/-- Insertion of one element into a list sorted by `le` (used to model
Mongo's `sort`). -/
def insertBy (le : α → α → Bool) (x : α) : List α → List α
  | [] => [x]
  | y :: ys => if le x y then x :: y :: ys else y :: insertBy le x ys

/-- Insertion sort by `le`, modelling Mongo `sort`. -/
def sortBy (le : α → α → Bool) (l : List α) : List α :=
  l.foldr (insertBy le) []

/-- Lexicographic order on character lists (Mongo's ascending string
sort). -/
def strLeB : Str → Str → Bool
  | [], _ => true
  | _ :: _, [] => false
  | a :: as, b :: bs => if a = b then strLeB as bs else decide (a < b)

/-- Python truthiness of a possibly-missing string: `None` and `""`
are falsy. -/
def pyTruthy : Option Str → Bool
  | none => false
  | some s => !s.isEmpty

/-- Python `a or b` on possibly-missing strings: `b` when `a` is
falsy. -/
def pyOr (a b : Option Str) : Option Str :=
  if pyTruthy a then a else b

/-- Python `str.strip()`: drop leading and trailing whitespace. -/
def pyStrip (s : Str) : Str :=
  ((s.dropWhile Char.isWhitespace).reverse.dropWhile Char.isWhitespace).reverse

/-- Python `random.randint(a, b)` fed by one oracle draw `r`: a value in
`[a, b]` (inclusive). -/
def pyRandint (r a b : Nat) : Nat := a + r % (b - a + 1)

/-- Python `random.choice(pool)` fed by one oracle draw `r`. -/
def pick (pool : List Str) (r : Nat) : Str :=
  pool.getD (r % pool.length) []

/-! ## HTTP operations that write -/

/-- Route `create_campaign` (`main.py` lines 109-118): insert a campaign
document and echo id, name and description. -/
def create_campaign (db : DB) (name : Str) (description : Option Str)
    (now : Int) (newId : Nat) : DB × (Nat × Str × Option Str) :=
  ({db with campaigns :=
      db.campaigns ++ [{ _id := newId, name := name, description := description,
                         created_at := now, updated_at := now }]},
   (newId, name, description))

/-- One parsed CSV row, carrying the values found under the four
recognised headers (`None` when the column is missing). -/
structure CSVRow where
  companyNameCol : Option Str
  company_name_col : Option Str
  linkedinCol : Option Str
  linkedin_url_col : Option Str
deriving DecidableEq

/-- The row-processing body of `upload_companies`
(`main.py` lines 136-148): skip rows whose company name is falsy,
insert the others with stripped fields, count the inserts. -/
def uploadRowStep (cid : String) (now : Int) :
    DB × Nat → CSVRow → DB × Nat :=
  fun acc row =>
    let company_name := pyOr row.companyNameCol row.company_name_col
    let linkedin_url := pyOr row.linkedinCol row.linkedin_url_col
    if pyTruthy company_name then
      ({acc.1 with companies := acc.1.companies ++
          [{ campaign_id := cid,
             company_name := pyStrip (company_name.getD []),
             linkedin_url := pyStrip (linkedin_url.getD []),
             created_at := now, updated_at := now }]},
       acc.2 + 1)
    else acc

/-- Route `upload_companies` (`main.py` lines 128-149).  CSV decoding and
`csv.DictReader` are abstracted: the upload arrives as the list of
parsed rows.  Returns the HTTP 400 of a non-CSV content type, or the
new store and the `inserted` count. -/
def upload_companies (db : DB) (cid : String) (content_type : String)
    (rows : List CSVRow) (now : Int) : Except (Nat × String) (DB × Nat) :=
  if ¬(content_type = "text/csv" ∨ content_type = "application/vnd.ms-excel" ∨
       content_type = "application/csv") then
    .error (400, "Please upload a CSV file")
  else
    .ok (rows.foldl (uploadRowStep cid now) (db, 0))

/-- Route `upsert_templates` (`main.py` lines 159-171): Mongo `update_one`
with `upsert=True` — update the first matching template document
(`$set` refreshes the texts and `updated_at`), or insert a fresh one
whose `created_at` comes from `$setOnInsert`.  Also returns the
`find_one` the route serializes. -/
def upsert_templates (db : DB) (cid : String) (ct ft : Str) (now : Int) :
    DB × Option TemplateDoc :=
  let setFields := fun t : TemplateDoc =>
    {t with connection_template := ct, followup_template := ft, updated_at := now}
  let freshDoc : TemplateDoc :=
    { campaign_id := cid, connection_template := ct, followup_template := ft,
      created_at := now, updated_at := now }
  let newTemplates :=
    if db.templates.any (fun t => decide (t.campaign_id = cid)) then
      updateFirst (fun t => decide (t.campaign_id = cid)) setFields db.templates
    else
      db.templates ++ [freshDoc]
  let db1 := {db with templates := newTemplates}
  (db1, db1.templates.find? (fun t => decide (t.campaign_id = cid)))

/-- First-name pool of the mock prospect search (`main.py` line 192). -/
def firstNamePool : List Str :=
  ["Alex", "Jordan", "Taylor", "Casey", "Riley", "Drew", "Chris"].map String.data

/-- Suffix pool whose choice is truncated to `""` by `[:0]`
(`main.py` line 193). -/
def firstSuffixPool : List Str := ["", "-Lee", "-Ray"].map String.data

/-- Last-name pool of the mock prospect search (`main.py` line 194). -/
def lastNamePool : List Str :=
  ["Smith", "Johnson", "Lee", "Brown", "Davis", "Miller"].map String.data

/-- Suffix pool whose choice is truncated to `""` by `[:0]`
(`main.py` line 195). -/
def lastSuffixPool : List Str := ["", "-Jr"].map String.data

/-- One generated prospect (`main.py` lines 192-208).  The `n`-th
prospect of the run consumes oracle draws `4n .. 4n+3` and the fresh
object id `idsrc n`; `[:0]` is `List.take 0`, so the chosen suffix is
truncated away exactly as in the source. -/
def mkProspectDoc (cid : String) (jt : Str) (now : Int)
    (rand idsrc : Nat → Nat) (cname : Str) (n : Nat) : ProspectDoc :=
  { _id := idsrc n, campaign_id := cid, company_name := some cname,
    first_name := pick firstNamePool (rand (4 * n)) ++
      (pick firstSuffixPool (rand (4 * n + 1))).take 0,
    last_name := pick lastNamePool (rand (4 * n + 2)) ++
      (pick lastSuffixPool (rand (4 * n + 3))).take 0,
    job_title := some jt, profile_url := none, personalized_line := none,
    status := "pending", created_at := now, updated_at := now,
    last_action_at := none }

/-- The nested loops of `search_and_create_prospects`: two prospects
per company (`for i in range(2)` unrolled), numbering prospects left
to right. -/
def searchGo (cid : String) (jt : Str) (now : Int) (rand idsrc : Nat → Nat) :
    List CompanyDoc → Nat → List ProspectDoc
  | [], _ => []
  | c :: cs, n =>
    mkProspectDoc cid jt now rand idsrc c.company_name n ::
    mkProspectDoc cid jt now rand idsrc c.company_name (n + 1) ::
    searchGo cid jt now rand idsrc cs (n + 2)

/-- The `db["company"].find({"campaign_id": campaign_id})` query. -/
def campaignCompanies (db : DB) (cid : String) : List CompanyDoc :=
  db.companies.filter (fun c => decide (c.campaign_id = cid))

/-- Route `search_and_create_prospects` (`main.py` lines 181-210): HTTP 400
when the campaign has no companies, otherwise insert the generated
prospects and return the `created` count. -/
def search_and_create_prospects (db : DB) (cid : String) (jt : Str)
    (now : Int) (rand idsrc : Nat → Nat) : Except (Nat × String) (DB × Nat) :=
  let companies := campaignCompanies db cid
  if companies.isEmpty then
    .error (400, "No companies found for this campaign")
  else
    let newPs := searchGo cid jt now rand idsrc companies 0
    .ok ({db with prospects := db.prospects ++ newPs}, newPs.length)

/-! ## Read-only operations -/

/-- Route `list_campaigns` (`main.py` lines 121-124): all campaigns, newest
`created_at` first; reads only. -/
def list_campaigns (db : DB) : DB × List CampaignDoc :=
  (db, sortBy (fun a b => decide (b.created_at ≤ a.created_at)) db.campaigns)

/-- Route `list_companies` (`main.py` lines 152-155): the campaign's
companies in ascending name order; reads only. -/
def list_companies (db : DB) (cid : String) : DB × List CompanyDoc :=
  (db, sortBy (fun a b => strLeB a.company_name b.company_name)
    (db.companies.filter (fun c => decide (c.campaign_id = cid))))

/-- Route `get_templates` (`main.py` lines 174-177): the campaign's template
document, when any; reads only. -/
def get_templates (db : DB) (cid : String) : DB × Option TemplateDoc :=
  (db, db.templates.find? (fun t => decide (t.campaign_id = cid)))

/-- Route `list_prospects` (`main.py` lines 213-216): the campaign's
prospects, newest `created_at` first; reads only. -/
def list_prospects (db : DB) (cid : String) : DB × List ProspectDoc :=
  (db, sortBy (fun a b => decide (b.created_at ≤ a.created_at))
    (db.prospects.filter (fun p => decide (p.campaign_id = cid))))

/-- Route `campaign_stats` (`main.py` lines 220-235): the six status counts
(total, requested, followed_up, accepted, replied, pending); reads
only. -/
def campaign_stats (db : DB) (cid : String) :
    DB × (Nat × Nat × Nat × Nat × Nat × Nat) :=
  let cnt := fun (pr : ProspectDoc → Bool) =>
    (db.prospects.filter
      (fun p => decide (p.campaign_id = cid) && pr p)).length
  (db, (cnt (fun _ => true),
        cnt (fun p => decide (p.status = "requested")),
        cnt (fun p => decide (p.status = "followed_up")),
        cnt (fun p => decide (p.status = "accepted")),
        cnt (fun p => decide (p.status = "replied")),
        cnt (fun p => decide (p.status = "pending"))))

/-- Route `inbox` (`main.py` lines 302-306): prospects in status `replied`
across all campaigns, most recently updated first; reads only. -/
def inbox (db : DB) : DB × List ProspectDoc :=
  (db, sortBy (fun a b => decide (b.updated_at ≤ a.updated_at))
    (db.prospects.filter (fun p => decide (p.status = "replied"))))

/-! ## The simulated automation engine

`process_automation` (`main.py` lines 243-291), run with a single
current time `now` (seconds) and the randomness oracle `rand`.  Oracle
draw 0 is the daily limit (`random.randint(10, 20)`); each processed
prospect then consumes one further draw for its scheduling offset, in
processing order. -/

/-- The render data the engine passes to `render_template`: the
prospect document itself (`render_template(tmpl, p)`). -/
def ProspectDoc.renderData (p : ProspectDoc) : RenderData :=
  { first_name := some p.first_name, company_name := p.company_name,
    job_title := p.job_title, personalized_line := p.personalized_line }

/-- The campaign's connection template, or the hardcoded fallback
(`main.py` line 245). -/
def connTemplateOf (db : DB) (cid : String) : Str :=
  (((db.templates.find? (fun t => decide (t.campaign_id = cid))).map
      TemplateDoc.connection_template).getD
    ("Hi \x7b\x7bFirst Name\x7d\x7d, would love to connect.".data))

/-- The campaign's follow-up template, or the hardcoded fallback
(`main.py` line 246). -/
def followupTemplateOf (db : DB) (cid : String) : Str :=
  (((db.templates.find? (fun t => decide (t.campaign_id = cid))).map
      TemplateDoc.followup_template).getD
    ("Following up on my request, \x7b\x7bFirst Name\x7d\x7d.".data))

/-- The `$set` applied to a prospect sent a connection request
(`main.py` line 269). -/
def connUpdate (now : Int) (q : ProspectDoc) : ProspectDoc :=
  {q with status := "requested", last_action_at := some now, updated_at := now}

/-- The `$set` applied to a prospect sent a follow-up
(`main.py` line 291). -/
def fuUpdate (now : Int) (q : ProspectDoc) : ProspectDoc :=
  {q with status := "followed_up", last_action_at := some now, updated_at := now}

/-- The message log written for one connection request
(`main.py` lines 258-268): type `connection`, status `sent`, scheduled
2-30 minutes from now (oracle draw `k`), sent now, rendered content. -/
def connLog (cid : String) (now : Int) (rand : Nat → Nat) (tmpl : Str)
    (p : ProspectDoc) (k : Nat) : MessageLogDoc :=
  { campaign_id := cid, prospect_id := p._id, type := "connection",
    status := "sent",
    scheduled_at := now + 60 * (pyRandint (rand k) 2 30 : Nat),
    sent_at := now, content := render_template tmpl p.renderData }

/-- The message log written for one follow-up (`main.py` lines
280-290): type `followup`, status `sent`, scheduled 5-45 minutes from
now. -/
def fuLog (cid : String) (now : Int) (rand : Nat → Nat) (tmpl : Str)
    (p : ProspectDoc) (k : Nat) : MessageLogDoc :=
  { campaign_id := cid, prospect_id := p._id, type := "followup",
    status := "sent",
    scheduled_at := now + 60 * (pyRandint (rand k) 5 45 : Nat),
    sent_at := now, content := render_template tmpl p.renderData }

/-- The connection logs of a processed prospect list, first oracle
draw `k`. -/
def mkConnLogs (cid : String) (now : Int) (rand : Nat → Nat) (tmpl : Str) :
    Nat → List ProspectDoc → List MessageLogDoc
  | _, [] => []
  | k, p :: ps => connLog cid now rand tmpl p k ::
      mkConnLogs cid now rand tmpl (k + 1) ps

/-- The follow-up logs of a processed prospect list, first oracle draw
`k`. -/
def mkFuLogs (cid : String) (now : Int) (rand : Nat → Nat) (tmpl : Str) :
    Nat → List ProspectDoc → List MessageLogDoc
  | _, [] => []
  | k, p :: ps => fuLog cid now rand tmpl p k ::
      mkFuLogs cid now rand tmpl (k + 1) ps

/-- Fold the per-selected-prospect `update_one({"_id": ...})` calls of
one engine phase over the prospect collection. -/
def applyUpdates (f : ProspectDoc → ProspectDoc) (sel : List ProspectDoc)
    (ps : List ProspectDoc) : List ProspectDoc :=
  sel.foldl (fun acc p => updateFirst (fun q => decide (q._id = p._id)) f acc) ps

/-- One iteration of the connection-request loop (`main.py` lines
254-270), including the redundant `processed >= daily_limit` break
check.  State: store, `processed` counter, next oracle draw index. -/
def connStep (cid : String) (now : Int) (rand : Nat → Nat) (tmpl : Str)
    (dl : Nat) : DB × Nat × Nat → ProspectDoc → DB × Nat × Nat :=
  fun acc p =>
    let db := acc.1
    let processed := acc.2.1
    let k := acc.2.2
    if dl ≤ processed then acc
    else
      ({db with
          messagelogs := db.messagelogs ++ [connLog cid now rand tmpl p k],
          prospects := updateFirst (fun q => decide (q._id = p._id))
            (connUpdate now) db.prospects},
       (processed + 1, k + 1))

/-- The query of the connection phase: pending prospects of the
campaign, capped by the `limit(daily_limit)` cursor. -/
def pendingSelection (db : DB) (cid : String) (dl : Nat) : List ProspectDoc :=
  (db.prospects.filter
    (fun p => decide (p.campaign_id = cid ∧ p.status = "pending"))).take dl

/-- Connection-request phase (`main.py` lines 253-270).  Returns the
new store and the next unused oracle draw index. -/
def automationPhase1 (db : DB) (cid : String) (now : Int) (rand : Nat → Nat)
    (tmpl : Str) (dl : Nat) : DB × Nat :=
  let sel := pendingSelection db cid dl
  let r := sel.foldl (connStep cid now rand tmpl dl) (db, (0, 1))
  (r.1, r.2.2)

/-- The Mongo `{"last_action_at": {"$lte": bound}}` match: a missing
or null `last_action_at` matches no `$lte` bound. -/
def lteGate (la : Option Int) (bound : Int) : Bool :=
  match la with
  | some t => decide (t ≤ bound)
  | none => false

/-- The follow-up query's matching documents, before the cursor cap:
requested prospects of the campaign whose last action is at least
three days old. -/
def followupCandidates (db : DB) (cid : String) (now : Int) :
    List ProspectDoc :=
  db.prospects.filter
    (fun p => decide (p.campaign_id = cid) && decide (p.status = "requested") &&
      lteGate p.last_action_at (now - 259200))

/-- The query of the follow-up phase: the candidates, capped by
`limit(daily_limit)`. -/
def followupSelection (db : DB) (cid : String) (now : Int) (dl : Nat) :
    List ProspectDoc :=
  (followupCandidates db cid now).take dl

/-- One iteration of the follow-up loop (`main.py` lines 279-291).
State: store and next oracle draw index (this loop has no break). -/
def fuStep (cid : String) (now : Int) (rand : Nat → Nat) (tmpl : Str) :
    DB × Nat → ProspectDoc → DB × Nat :=
  fun acc p =>
    let db := acc.1
    let k := acc.2
    ({db with
        messagelogs := db.messagelogs ++ [fuLog cid now rand tmpl p k],
        prospects := updateFirst (fun q => decide (q._id = p._id))
          (fuUpdate now) db.prospects},
     k + 1)

/-- Follow-up phase (`main.py` lines 272-291), started at oracle draw
index `k0`. -/
def automationPhase2 (db : DB) (cid : String) (now : Int) (rand : Nat → Nat)
    (tmpl : Str) (dl : Nat) (k0 : Nat) : DB :=
  (followupSelection db cid now dl).foldl (fuStep cid now rand tmpl) (db, k0) |>.1

/-- The per-run daily limit, `random.randint(10, 20)` on oracle draw
0 (`main.py` line 249). -/
def dailyLimitOf (rand : Nat → Nat) : Nat := pyRandint (rand 0) 10 20

/-- The engine `process_automation` (`main.py` lines 243-291): load the templates
(or fallbacks), draw the daily limit, run the connection phase, then
the follow-up phase on the updated store. -/
def process_automation (db : DB) (cid : String) (now : Int)
    (rand : Nat → Nat) : DB :=
  let connection_tmpl := connTemplateOf db cid
  let followup_tmpl := followupTemplateOf db cid
  let daily_limit := dailyLimitOf rand
  let r1 := automationPhase1 db cid now rand connection_tmpl daily_limit
  automationPhase2 r1.1 cid now rand followup_tmpl daily_limit r1.2

/-! ## `serialize` and its dictionary model

`serialize` (`main.py` lines 34-44) works on raw Mongo documents, so
it gets its own untyped model: a document is an association list of
keys and primitive values. -/

/-- A primitive Mongo/BSON value as `serialize` distinguishes them:
an object id, a datetime, or anything else (text, null, number). -/
inductive BVal where
  | oid (s : String)
  | dt (t : Int)
  | text (s : String)
  | null
  | num (n : Int)
deriving DecidableEq

/-- An untyped document: keys in Python dict insertion order. -/
abbrev Doc := List (String × BVal)

/-- Python `str(...)` on a primitive value.  The textual rendering of
datetimes and numbers is abstract but injective; only the object-id
case (`str(ObjectId)` is its hex string) matters to the code. -/
def pyStrOfBVal : BVal → String
  | .oid s => s
  | .dt t => "datetime-" ++ toString t
  | .text s => s
  | .null => "None"
  | .num n => toString n

/-- Python `datetime.isoformat()`, abstracted to an injective textual
rendering of the timestamp. -/
def isoformat (t : Int) : String := "iso-" ++ toString t

/-- The datetime-conversion loop body of `serialize` (`main.py` lines
41-43): datetime values become their ISO text, all else unchanged. -/
def convertDT : String × BVal → String × BVal
  | (k, .dt t) => (k, .text (isoformat t))
  | kv => kv

/-- Python `d[k] = v` on a dict: replace the value in place when the
key exists, append the pair otherwise. -/
def dictSet (d : Doc) (k : String) (v : BVal) : Doc :=
  if d.any (fun kv => decide (kv.1 = k)) then
    d.map (fun kv => if kv.1 = k then (k, v) else kv)
  else d ++ [(k, v)]

/-- Python `d.get(k)` / `k in d` on a dict. -/
def dictLookup (d : Doc) (k : String) : Option BVal :=
  (d.find? (fun kv => decide (kv.1 = k))).map Prod.snd

/-- The helper `serialize` (`main.py` lines 34-44): an absent (or falsy, i.e.
empty) document comes back unchanged; otherwise `_id` is popped and
re-added as the string field `id`, then every datetime value is
converted to ISO text.  The source copies the dict (`d = dict(doc)`),
which the purely functional embedding reflects by construction. -/
def serialize : Option Doc → Option Doc
  | none => none
  | some d =>
    if d.isEmpty then some d
    else
      let d1 :=
        match dictLookup d ("_id") with
        | some v => dictSet (d.eraseP (fun kv => decide (kv.1 = "_id"))) "id"
            (.text (pyStrOfBVal v))
        | none => d
      some (d1.map convertDT)

/-! ## The system's step relation

One constructor per HTTP-reachable operation of `main.py` (the
automation engine counts through its trigger route's background task;
the root, `/test` and `/api/notice` routes, which never touch a
collection, appear as the identity steps they are). -/

/-- Relation `Step db db'`: one operation of the system can turn store `db`
into store `db'`. -/
inductive Step : DB → DB → Prop where
  | createCampaign (db : DB) (name : Str) (description : Option Str)
      (now : Int) (newId : Nat) :
      Step db (create_campaign db name description now newId).1
  | uploadCompanies (db : DB) (cid : String) (content_type : String)
      (rows : List CSVRow) (now : Int) (db' : DB) (n : Nat)
      (h : upload_companies db cid content_type rows now = .ok (db', n)) :
      Step db db'
  | uploadCompaniesRejected (db : DB) (cid : String) (content_type : String)
      (rows : List CSVRow) (now : Int) (e : Nat × String)
      (h : upload_companies db cid content_type rows now = .error e) :
      Step db db
  | upsertTemplates (db : DB) (cid : String) (ct ft : Str) (now : Int) :
      Step db (upsert_templates db cid ct ft now).1
  | searchProspects (db : DB) (cid : String) (jt : Str) (now : Int)
      (rand idsrc : Nat → Nat) (db' : DB) (n : Nat)
      (h : search_and_create_prospects db cid jt now rand idsrc = .ok (db', n)) :
      Step db db'
  | searchProspectsRejected (db : DB) (cid : String) (jt : Str) (now : Int)
      (rand idsrc : Nat → Nat) (e : Nat × String)
      (h : search_and_create_prospects db cid jt now rand idsrc = .error e) :
      Step db db
  | automation (db : DB) (cid : String) (now : Int) (rand : Nat → Nat) :
      Step db (process_automation db cid now rand)
  | listCampaigns (db : DB) : Step db (list_campaigns db).1
  | listCompanies (db : DB) (cid : String) : Step db (list_companies db cid).1
  | getTemplates (db : DB) (cid : String) : Step db (get_templates db cid).1
  | listProspects (db : DB) (cid : String) : Step db (list_prospects db cid).1
  | campaignStats (db : DB) (cid : String) : Step db (campaign_stats db cid).1
  | inboxRead (db : DB) : Step db (inbox db).1
  | staticRoute (db : DB) : Step db db

/-! ## Claims C3 and C10: template rendering -/

/-- Template and data separating the sequential `render_template`
from the spec's simultaneous reading: the first-name value itself
contains the later-processed token. -/
def c3Tmpl : Str := "Hello \x7b\x7bFirst Name\x7d\x7d".data

/-- Data for the C3 counterexample. -/
def c3Data : RenderData :=
  { first_name := some ("\x7b\x7bJob Title\x7d\x7d".data), company_name := none,
    job_title := some ("CEO".data), personalized_line := none }

/-- C3 (counterexample): rendering is not the simultaneous replacement
of every literal token occurrence by the mapping's value — here the
code yields `"Hello CEO"` while replacing the occurrence of the
First-Name token by the first name's value would yield
`"Hello \x7b\x7bJob Title\x7d\x7d"`. -/
theorem C3_counterexample :
    ¬ (render_template c3Tmpl c3Data = renderSimul c3Tmpl c3Data) := by decide

/-- C3 (amended): template rendering applies the four replacements
sequentially, in the fixed order First Name, Company Name, Job Title,
Personalized Line, each pass replacing every occurrence of its token
at that point of the process with the mapping's value coerced to text
(empty when the value is absent or empty); a template containing no
occurrence of the four known tokens — in particular one whose
placeholders all lie outside the fixed set — is returned unchanged. -/
theorem C3_sequential_rendering (t : Str) (d : RenderData) :
    render_template t d =
      replaceAll
        (replaceAll
          (replaceAll
            (replaceAll t (tok ("First Name".data)) (pyStr d.first_name))
            (tok ("Company Name".data)) (pyStr d.company_name))
          (tok ("Job Title".data)) (pyStr d.job_title))
        (tok ("Personalized Line".data)) (pyStr d.personalized_line) ∧
    pyStr none = [] ∧ pyStr (some []) = [] ∧
    (occursIn (tok ("First Name".data)) t = false →
     occursIn (tok ("Company Name".data)) t = false →
     occursIn (tok ("Job Title".data)) t = false →
     occursIn (tok ("Personalized Line".data)) t = false →
     render_template t d = t) := by
  refine ⟨rfl, rfl, rfl, fun h1 h2 h3 h4 => ?_⟩
  show replaceAll
      (replaceAll
        (replaceAll
          (replaceAll t (tok ("First Name".data)) (pyStr d.first_name))
          (tok ("Company Name".data)) (pyStr d.company_name))
        (tok ("Job Title".data)) (pyStr d.job_title))
      (tok ("Personalized Line".data)) (pyStr d.personalized_line) = t
  rw [replaceAll_of_not_occurs _ t h1, replaceAll_of_not_occurs _ t h2,
    replaceAll_of_not_occurs _ t h3, replaceAll_of_not_occurs _ t h4]

/-- Data for the C3 witness. -/
def c3WData : RenderData :=
  { first_name := some ("Ann".data), company_name := none,
    job_title := none, personalized_line := none }

/-- A template whose only placeholder is outside the known set. -/
def c3WTmpl : Str := "Dear \x7b\x7bUnknown\x7d\x7d, hi.".data

/-- Witness for C3 (amended) at a concrete unknown-placeholder
template. -/
theorem C3_sequential_rendering_witness :
    occursIn (tok ("First Name".data)) c3WTmpl = false ∧
    render_template c3WTmpl c3WData = c3WTmpl :=
  ⟨by decide, (C3_sequential_rendering c3WTmpl c3WData).2.2.2
    (by decide) (by decide) (by decide) (by decide)⟩

/-- The C10 template: exactly the First-Name token. -/
def c10Tmpl : Str := "\x7b\x7bFirst Name\x7d\x7d".data

/-- The C10 data: the first-name value embeds the Job-Title token. -/
def c10Data : RenderData :=
  { first_name := some ("\x7b\x7bJob Title\x7d\x7d".data), company_name := none,
    job_title := some ("CEO".data), personalized_line := none }

/-- C10: substitution is sequential in the fixed order — a first-name
value that itself contains the later-processed Job-Title token has
that embedded token replaced by the job title in the same rendering
call, so this input renders to `"CEO"`. -/
theorem C10_sequential_substitution :
    c10Data.first_name = some (tok ("Job Title".data)) ∧
    render_template c10Tmpl c10Data = "CEO".data := ⟨by decide, by decide⟩

/-! ## Claim C5: template upsert -/

/-- Mongo `update_one` walks past a prefix with no match. -/
theorem updateFirst_append (pr : α → Bool) (f : α → α) :
    ∀ xs ys : List α, (∀ y ∈ xs, pr y = false) →
      updateFirst pr f (xs ++ ys) = xs ++ updateFirst pr f ys := by
  intro xs
  induction xs with
  | nil => intro ys _; rfl
  | cons x xs ih =>
    intro ys h
    have hx : pr x = false := h x (List.mem_cons_self x xs)
    simp [updateFirst, hx]
    exact ih ys (fun y hy => h y (List.mem_cons_of_mem x hy))

/-- Upsert when a matching template document exists: `$set` on the
first match. -/
theorem upsert_templates_found (db : DB) (cid : String) (ct ft : Str) (now : Int)
    (h : db.templates.any (fun t => decide (t.campaign_id = cid)) = true) :
    (upsert_templates db cid ct ft now).1.templates =
      updateFirst (fun t => decide (t.campaign_id = cid))
        (fun t => {t with connection_template := ct, followup_template := ft,
                          updated_at := now}) db.templates := by
  simp [upsert_templates, h]

/-- Upsert when no template document matches: insert a fresh one. -/
theorem upsert_templates_fresh (db : DB) (cid : String) (ct ft : Str) (now : Int)
    (h : db.templates.any (fun t => decide (t.campaign_id = cid)) = false) :
    (upsert_templates db cid ct ft now).1.templates =
      db.templates ++
        [{ campaign_id := cid, connection_template := ct, followup_template := ft,
           created_at := now, updated_at := now }] := by
  simp [upsert_templates, h]

/-- C5: upserting templates twice for the same campaign id, first at
time `t1` and then at a strictly later time `t2`, leaves exactly one
template document for that campaign; its `created_at` stays at the
first call's `t1` while its `updated_at` is `t1` after the first call
and the strictly larger `t2` after the second. -/
theorem C5_upsert_twice (db : DB) (cid : String) (ct1 ft1 ct2 ft2 : Str)
    (t1 t2 : Int)
    (h0 : db.templates.filter (fun t => decide (t.campaign_id = cid)) = [])
    (h12 : t1 < t2) :
    (upsert_templates db cid ct1 ft1 t1).1.templates.filter
        (fun t => decide (t.campaign_id = cid)) =
      [{ campaign_id := cid, connection_template := ct1, followup_template := ft1,
         created_at := t1, updated_at := t1 }] ∧
    (upsert_templates (upsert_templates db cid ct1 ft1 t1).1
        cid ct2 ft2 t2).1.templates.filter
        (fun t => decide (t.campaign_id = cid)) =
      [{ campaign_id := cid, connection_template := ct2, followup_template := ft2,
         created_at := t1, updated_at := t2 }] ∧
    t1 < t2 := by
  have hall : ∀ y ∈ db.templates, (y.campaign_id = cid) → False := by
    intro y hy heq
    have := List.filter_eq_nil_iff.mp h0 y hy
    simp [heq] at this
  have hany : db.templates.any (fun t => decide (t.campaign_id = cid)) = false := by
    simp only [List.any_eq_false, decide_eq_true_eq]
    intro y hy
    exact fun heq => hall y hy heq
  have e1 : (upsert_templates db cid ct1 ft1 t1).1.templates =
      db.templates ++
        [{ campaign_id := cid, connection_template := ct1, followup_template := ft1,
           created_at := t1, updated_at := t1 }] :=
    upsert_templates_fresh db cid ct1 ft1 t1 hany
  refine ⟨?_, ?_, h12⟩
  · rw [e1, List.filter_append, h0]
    simp
  · have hany2 : ((upsert_templates db cid ct1 ft1 t1).1.templates).any
        (fun t => decide (t.campaign_id = cid)) = true := by
      rw [e1]
      simp [List.any_append]
    have e2 : (upsert_templates (upsert_templates db cid ct1 ft1 t1).1
        cid ct2 ft2 t2).1.templates =
        db.templates ++
          [{ campaign_id := cid, connection_template := ct2, followup_template := ft2,
             created_at := t1, updated_at := t2 }] := by
      rw [upsert_templates_found _ _ _ _ _ hany2, e1,
        updateFirst_append _ _ _ _
          (fun y hy => by
            simp only [decide_eq_false_iff_not]
            exact fun hc => hall y hy hc)]
      simp [updateFirst]
    rw [e2, List.filter_append, h0]
    simp

/-- Witness for C5 on the empty store at times 0 and 1. -/
theorem C5_upsert_twice_witness :
    ((DB.mk [] [] [] [] []).templates.filter
        (fun t => decide (t.campaign_id = "c1")) = [] ∧ (0 : Int) < 1) ∧
    (upsert_templates (DB.mk [] [] [] [] []) "c1" [] [] 0).1.templates.filter
        (fun t => decide (t.campaign_id = "c1")) =
      [{ campaign_id := "c1", connection_template := [], followup_template := [],
         created_at := 0, updated_at := 0 }] :=
  ⟨⟨by decide, by decide⟩,
    (C5_upsert_twice (DB.mk [] [] [] [] []) "c1" [] [] [] [] 0 1
      (by decide) (by decide)).1⟩

/-! ## Claim C6: company CSV upload -/

/-- A row is kept exactly when its company-name value (either header
spelling, Python `or`) is truthy. -/
def keepRow (row : CSVRow) : Bool :=
  pyTruthy (pyOr row.companyNameCol row.company_name_col)

/-- The company document inserted for one kept row. -/
def rowToCompany (cid : String) (now : Int) (row : CSVRow) : CompanyDoc :=
  { campaign_id := cid,
    company_name := pyStrip ((pyOr row.companyNameCol row.company_name_col).getD []),
    linkedin_url := pyStrip ((pyOr row.linkedinCol row.linkedin_url_col).getD []),
    created_at := now, updated_at := now }

/-- The row loop of `upload_companies` inserts exactly the kept rows,
in order, and counts them. -/
theorem upload_fold (cid : String) (now : Int) :
    ∀ (rows : List CSVRow) (db0 : DB) (n0 : Nat),
      rows.foldl (uploadRowStep cid now) (db0, n0) =
        ({db0 with companies :=
            db0.companies ++ (rows.filter keepRow).map (rowToCompany cid now)},
         n0 + (rows.filter keepRow).length) := by
  intro rows
  induction rows with
  | nil => intro db0 n0; simp
  | cons r rows ih =>
    intro db0 n0
    cases hkr : keepRow r
    · have hkr' : pyTruthy (pyOr r.companyNameCol r.company_name_col) = false := by
        simpa [keepRow] using hkr
      simp only [List.foldl_cons, uploadRowStep, hkr', Bool.false_eq_true, if_false]
      rw [ih db0 n0]
      simp [List.filter_cons, hkr]
    · have hkr' : pyTruthy (pyOr r.companyNameCol r.company_name_col) = true := by
        simpa [keepRow] using hkr
      simp only [List.foldl_cons, uploadRowStep, hkr', if_true]
      rw [ih]
      simp only [List.filter_cons, hkr, if_true, List.map_cons, List.length_cons]
      refine Prod.ext ?_ ?_
      · simp [rowToCompany]
      · simp
        omega

/-- C6: a non-CSV content type is rejected with HTTP 400
`"Please upload a CSV file"` and nothing is inserted; an accepted
upload skips exactly the rows whose company-name value is missing or
empty, inserts every other row as a company document with stripped
text fields, and reports the exact number of inserted rows. -/
theorem C6_upload_companies (db : DB) (cid : String) (content_type : String)
    (rows : List CSVRow) (now : Int) :
    (¬(content_type = "text/csv" ∨ content_type = "application/vnd.ms-excel" ∨
        content_type = "application/csv") →
      upload_companies db cid content_type rows now =
        .error (400, "Please upload a CSV file")) ∧
    ((content_type = "text/csv" ∨ content_type = "application/vnd.ms-excel" ∨
        content_type = "application/csv") →
      upload_companies db cid content_type rows now =
        .ok ({db with companies :=
                db.companies ++ (rows.filter keepRow).map (rowToCompany cid now)},
             (rows.filter keepRow).length)) := by
  constructor
  · intro h
    simp [upload_companies, h]
  · intro h
    simp only [upload_companies, h, not_true_eq_false, if_false]
    rw [upload_fold]
    simp

/-- Witness for C6: a JSON upload is rejected. -/
theorem C6_upload_companies_witness :
    ¬("application/json" = "text/csv" ∨
      "application/json" = "application/vnd.ms-excel" ∨
      "application/json" = "application/csv") ∧
    upload_companies (DB.mk [] [] [] [] []) "c1" "application/json" [] 0 =
      .error (400, "Please upload a CSV file") :=
  ⟨by decide,
    (C6_upload_companies (DB.mk [] [] [] [] []) "c1" "application/json" [] 0).1
      (by decide)⟩

/-! ## Claim C4: prospect search -/

/-- Python `random.choice` picks a pool member. -/
theorem pick_mem (pool : List Str) (r : Nat) (h : pool ≠ []) :
    pick pool r ∈ pool := by
  have hl : r % pool.length < pool.length :=
    Nat.mod_lt _ (List.length_pos.mpr h)
  rw [pick, List.getD_eq_getElem?_getD, List.getElem?_eq_getElem hl]
  exact List.getElem_mem hl

/-- The generation loop produces exactly two prospects per company. -/
theorem searchGo_length (cid : String) (jt : Str) (now : Int)
    (rand idsrc : Nat → Nat) :
    ∀ (cs : List CompanyDoc) (n : Nat),
      (searchGo cid jt now rand idsrc cs n).length = 2 * cs.length := by
  intro cs
  induction cs with
  | nil => intro n; rfl
  | cons c cs ih =>
    intro n
    simp only [searchGo, List.length_cons, ih]
    omega

/-- Every generated prospect is pending, carries the queried job
title, and has first and last name straight from the fixed pools
(the randomly chosen suffix is truncated to nothing). -/
theorem searchGo_mem (cid : String) (jt : Str) (now : Int)
    (rand idsrc : Nat → Nat) :
    ∀ (cs : List CompanyDoc) (n : Nat), ∀ p ∈ searchGo cid jt now rand idsrc cs n,
      p.status = "pending" ∧ p.job_title = some jt ∧
      p.first_name ∈ firstNamePool ∧ p.last_name ∈ lastNamePool := by
  have hmk : ∀ (cname : Str) (m : Nat),
      (mkProspectDoc cid jt now rand idsrc cname m).status = "pending" ∧
      (mkProspectDoc cid jt now rand idsrc cname m).job_title = some jt ∧
      (mkProspectDoc cid jt now rand idsrc cname m).first_name ∈ firstNamePool ∧
      (mkProspectDoc cid jt now rand idsrc cname m).last_name ∈ lastNamePool := by
    intro cname m
    refine ⟨rfl, rfl, ?_, ?_⟩
    · show pick firstNamePool (rand (4 * m)) ++
        (pick firstSuffixPool (rand (4 * m + 1))).take 0 ∈ firstNamePool
      simp only [List.take_zero, List.append_nil]
      exact pick_mem _ _ (by simp [firstNamePool])
    · show pick lastNamePool (rand (4 * m + 2)) ++
        (pick lastSuffixPool (rand (4 * m + 3))).take 0 ∈ lastNamePool
      simp only [List.take_zero, List.append_nil]
      exact pick_mem _ _ (by simp [lastNamePool])
  intro cs
  induction cs with
  | nil => intro n p hp; simp [searchGo] at hp
  | cons c cs ih =>
    intro n p hp
    simp only [searchGo, List.mem_cons] at hp
    rcases hp with h | h | h
    · rw [h]; exact hmk c.company_name n
    · rw [h]; exact hmk c.company_name (n + 1)
    · exact ih (n + 2) p h

/-- C4: with no company on the campaign the prospect search fails with
HTTP 400 `"No companies found for this campaign"` and creates nothing;
with `N` companies it creates exactly `2 * N` prospect documents, each
pending, with the queried job title and names drawn from the fixed
pools with no suffix ever appended. -/
theorem C4_search_and_create (db : DB) (cid : String) (jt : Str) (now : Int)
    (rand idsrc : Nat → Nat) :
    (campaignCompanies db cid = [] →
      search_and_create_prospects db cid jt now rand idsrc =
        .error (400, "No companies found for this campaign")) ∧
    (campaignCompanies db cid ≠ [] →
      search_and_create_prospects db cid jt now rand idsrc =
        .ok ({db with prospects := db.prospects ++
                searchGo cid jt now rand idsrc (campaignCompanies db cid) 0},
             (searchGo cid jt now rand idsrc (campaignCompanies db cid) 0).length) ∧
      (searchGo cid jt now rand idsrc (campaignCompanies db cid) 0).length =
        2 * (campaignCompanies db cid).length ∧
      ∀ p ∈ searchGo cid jt now rand idsrc (campaignCompanies db cid) 0,
        p.status = "pending" ∧ p.job_title = some jt ∧
        p.first_name ∈ firstNamePool ∧ p.last_name ∈ lastNamePool) := by
  constructor
  · intro h
    simp [search_and_create_prospects, h]
  · intro h
    refine ⟨?_, searchGo_length cid jt now rand idsrc _ 0,
      searchGo_mem cid jt now rand idsrc _ 0⟩
    simp [search_and_create_prospects, List.isEmpty_iff, h]

/-- A one-company store for the C4 witness. -/
def c4DB : DB :=
  DB.mk [] [{ campaign_id := "c1", company_name := "Acme".data,
              linkedin_url := [], created_at := 0, updated_at := 0 }] [] [] []

/-- Witness for C4 on a campaign with one company: two pending
prospects are created. -/
theorem C4_search_and_create_witness :
    campaignCompanies c4DB ("c1") ≠ [] ∧
    (search_and_create_prospects c4DB ("c1") ("CEO".data) 0 (fun _ => 0) (fun n => n) =
        .ok ({c4DB with prospects := (c4DB.prospects ++
                searchGo ("c1") ("CEO".data) 0 (fun _ => 0) (fun n => n)
                  (campaignCompanies c4DB ("c1")) 0)},
             (searchGo ("c1") ("CEO".data) 0 (fun _ => 0) (fun n => n)
                (campaignCompanies c4DB ("c1")) 0).length) ∧
      (searchGo ("c1") ("CEO".data) 0 (fun _ => 0) (fun n => n)
          (campaignCompanies c4DB ("c1")) 0).length =
        2 * (campaignCompanies c4DB ("c1")).length ∧
      ∀ p ∈ searchGo ("c1") ("CEO".data) 0 (fun _ => 0) (fun n => n)
          (campaignCompanies c4DB ("c1")) 0,
        p.status = "pending" ∧ p.job_title = some ("CEO".data) ∧
        p.first_name ∈ firstNamePool ∧ p.last_name ∈ lastNamePool) :=
  ⟨by decide,
    (C4_search_and_create c4DB ("c1") ("CEO".data) 0 (fun _ => 0) (fun n => n)).2
      (by decide)⟩

/-! ## Claim C7: `serialize` -/

/-- The value transformation `serialize` applies to every field:
datetimes become their ISO text, everything else is untouched. -/
def convVal : BVal → BVal
  | .dt t => .text (isoformat t)
  | v => v

/-- Function `convertDT` keeps the key. -/
theorem convertDT_key (kv : String × BVal) : (convertDT kv).1 = kv.1 := by
  cases kv with
  | mk k v => cases v <;> rfl

/-- Function `convertDT` transforms the value by `convVal`. -/
theorem convertDT_val (kv : String × BVal) : (convertDT kv).2 = convVal kv.2 := by
  cases kv with
  | mk k v => cases v <;> rfl

/-- One-step unfolding of a dict lookup. -/
theorem dictLookup_cons (kv : String × BVal) (d : Doc) (k : String) :
    dictLookup (kv :: d) k = if kv.1 = k then some kv.2 else dictLookup d k := by
  by_cases h : kv.1 = k
  · have e : List.find? (fun kv : String × BVal => decide (kv.1 = k)) (kv :: d) =
        some kv :=
      List.find?_cons_of_pos _ (decide_eq_true h)
    rw [if_pos h]
    unfold dictLookup
    rw [e]
    rfl
  · have e : List.find? (fun kv : String × BVal => decide (kv.1 = k)) (kv :: d) =
        List.find? (fun kv : String × BVal => decide (kv.1 = k)) d :=
      List.find?_cons_of_neg _ (by simpa using h)
    rw [if_neg h]
    unfold dictLookup
    rw [e]

/-- One-step unfolding of the `_id` pop. -/
theorem eraseP_id_cons (kv : String × BVal) (d : Doc) :
    (kv :: d).eraseP (fun kv => decide (kv.1 = "_id")) =
      if kv.1 = "_id" then d
      else kv :: d.eraseP (fun kv => decide (kv.1 = "_id")) := by
  by_cases h : kv.1 = "_id"
  · rw [if_pos h, List.eraseP_cons_of_pos]
    simpa using h
  · rw [if_neg h, List.eraseP_cons_of_neg]
    simpa using h

/-- Looking a key up after the datetime-conversion pass. -/
theorem dictLookup_map_convertDT (k : String) :
    ∀ d : Doc, dictLookup (d.map convertDT) k = (dictLookup d k).map convVal := by
  intro d
  induction d with
  | nil => rfl
  | cons kv d ih =>
    rw [List.map_cons, dictLookup_cons, dictLookup_cons, convertDT_key]
    by_cases hk : kv.1 = k
    · rw [if_pos hk, if_pos hk, convertDT_val]
      rfl
    · rw [if_neg hk, if_neg hk, ih]

/-- Popping `_id` leaves the lookup of any other key unchanged. -/
theorem dictLookup_eraseP_ne (k : String) (hk : k ≠ "_id") :
    ∀ d : Doc,
      dictLookup (d.eraseP (fun kv => decide (kv.1 = "_id"))) k = dictLookup d k := by
  intro d
  induction d with
  | nil => rfl
  | cons kv d ih =>
    rw [eraseP_id_cons]
    by_cases h : kv.1 = "_id"
    · rw [if_pos h, dictLookup_cons]
      have hne : ¬ (kv.1 = k) := by
        rw [h]
        exact fun he => hk he.symm
      rw [if_neg hne]
    · rw [if_neg h, dictLookup_cons, dictLookup_cons]
      by_cases hke : kv.1 = k
      · rw [if_pos hke, if_pos hke]
      · rw [if_neg hke, if_neg hke, ih]

/-- Setting a present key: the lookup now yields the new value. -/
theorem lookup_setmap_self (k0 : String) (v : BVal) :
    ∀ d : Doc, d.any (fun kv => decide (kv.1 = k0)) = true →
      dictLookup (d.map (fun kv => if kv.1 = k0 then (k0, v) else kv)) k0 = some v := by
  intro d
  induction d with
  | nil => intro h; simp at h
  | cons kv d ih =>
    intro h
    rw [List.map_cons]
    by_cases hk : kv.1 = k0
    · have e : (if kv.1 = k0 then (k0, v) else kv) = (k0, v) := if_pos hk
      rw [e, dictLookup_cons, if_pos rfl]
    · have e : (if kv.1 = k0 then (k0, v) else kv) = kv := if_neg hk
      rw [e, dictLookup_cons, if_neg hk]
      apply ih
      simp only [List.any_cons, Bool.or_eq_true] at h
      rcases h with h | h
      · exact absurd (of_decide_eq_true h) hk
      · exact h

/-- Appending a fresh key: the lookup of that key yields its value. -/
theorem lookup_append_single_self (k0 : String) (v : BVal) :
    ∀ d : Doc, d.any (fun kv => decide (kv.1 = k0)) = false →
      dictLookup (d ++ [(k0, v)]) k0 = some v := by
  intro d
  induction d with
  | nil =>
    intro _
    rw [List.nil_append, dictLookup_cons, if_pos rfl]
  | cons kv d ih =>
    intro h
    simp only [List.any_cons, Bool.or_eq_false_iff] at h
    have hk : ¬ kv.1 = k0 := by simpa using h.1
    rw [List.cons_append, dictLookup_cons, if_neg hk]
    exact ih h.2

/-- Setting key `k0` leaves the lookup of any other key unchanged
(present-key branch). -/
theorem lookup_setmap_other (k0 : String) (v : BVal) (k : String) (hk : k ≠ k0) :
    ∀ d : Doc,
      dictLookup (d.map (fun kv => if kv.1 = k0 then (k0, v) else kv)) k =
        dictLookup d k := by
  intro d
  induction d with
  | nil => rfl
  | cons kv d ih =>
    rw [List.map_cons]
    by_cases hke : kv.1 = k0
    · have e : (if kv.1 = k0 then (k0, v) else kv) = (k0, v) := if_pos hke
      rw [e, dictLookup_cons, dictLookup_cons]
      have h1 : ¬ ((k0, v).1 = k) := fun he => hk he.symm
      have h2 : ¬ (kv.1 = k) := by
        rw [hke]
        exact fun he => hk he.symm
      rw [if_neg h1, if_neg h2, ih]
    · have e : (if kv.1 = k0 then (k0, v) else kv) = kv := if_neg hke
      rw [e, dictLookup_cons, dictLookup_cons]
      by_cases hkk : kv.1 = k
      · rw [if_pos hkk, if_pos hkk]
      · rw [if_neg hkk, if_neg hkk, ih]

/-- Appending key `k0` leaves the lookup of any other key unchanged
(fresh-key branch). -/
theorem lookup_append_single_other (k0 : String) (v : BVal) (k : String)
    (hk : k ≠ k0) :
    ∀ d : Doc, dictLookup (d ++ [(k0, v)]) k = dictLookup d k := by
  intro d
  induction d with
  | nil =>
    rw [List.nil_append, dictLookup_cons, if_neg (fun he => hk he.symm)]
  | cons kv d ih =>
    rw [List.cons_append, dictLookup_cons, dictLookup_cons]
    by_cases hkk : kv.1 = k
    · rw [if_pos hkk, if_pos hkk]
    · rw [if_neg hkk, if_neg hkk, ih]

/-- Setting `d[k0] = v` makes `d[k0]` yield `v`. -/
theorem dictLookup_dictSet_self (d : Doc) (k0 : String) (v : BVal) :
    dictLookup (dictSet d k0 v) k0 = some v := by
  unfold dictSet
  by_cases h : d.any (fun kv => decide (kv.1 = k0)) = true
  · simp only [h, if_true]
    exact lookup_setmap_self k0 v d h
  · simp only [h, if_false]
    refine lookup_append_single_self k0 v d ?_
    rw [← Bool.not_eq_true]
    exact h

/-- Setting `d[k0] = v` does not touch other keys. -/
theorem dictLookup_dictSet_other (d : Doc) (k0 : String) (v : BVal)
    (k : String) (hk : k ≠ k0) :
    dictLookup (dictSet d k0 v) k = dictLookup d k := by
  unfold dictSet
  by_cases h : d.any (fun kv => decide (kv.1 = k0)) = true
  · simp only [h, if_true]
    exact lookup_setmap_other k0 v k hk d
  · simp only [h, if_false]
    exact lookup_append_single_other k0 v k hk d

/-- Every entry of `d[k0] = v` either has key `k0` or was already in
`d`. -/
theorem mem_dictSet (d : Doc) (k0 : String) (v : BVal) :
    ∀ kv ∈ dictSet d k0 v, kv.1 = k0 ∨ kv ∈ d := by
  unfold dictSet
  by_cases h : d.any (fun kv => decide (kv.1 = k0)) = true
  · simp only [h, if_true]
    intro kv hkv
    rcases List.mem_map.mp hkv with ⟨kv0, hkv0, heq⟩
    by_cases he : kv0.1 = k0
    · left
      rw [← heq]
      simp [he]
    · right
      rw [← heq]
      simpa [he] using hkv0
  · simp only [h, if_false]
    intro kv hkv
    rcases List.mem_append.mp hkv with hkv | hkv
    · right; exact hkv
    · left
      simp only [List.mem_singleton] at hkv
      rw [hkv]

/-- With unique keys, popping `_id` removes every `_id` entry. -/
theorem eraseP_id_keys :
    ∀ d : Doc, (d.map Prod.fst).Nodup →
      ∀ kv ∈ d.eraseP (fun kv => decide (kv.1 = "_id")), kv.1 ≠ "_id" := by
  intro d
  induction d with
  | nil => intro _ kv hkv; simp at hkv
  | cons kv0 d ih =>
    intro hnd
    simp only [List.map_cons, List.nodup_cons] at hnd
    rw [eraseP_id_cons]
    by_cases h : kv0.1 = "_id"
    · rw [if_pos h]
      intro kv hkv heq
      apply hnd.1
      rw [h, ← heq]
      exact List.mem_map.mpr ⟨kv, hkv, rfl⟩
    · rw [if_neg h]
      intro kv hkv
      rcases List.mem_cons.mp hkv with he | hkv
      · rw [he]; exact h
      · exact ih hnd.2 kv hkv

/-- The `_id`-renaming step of `serialize` as a function of the
document. -/
def serializeD1 (d : Doc) : Doc :=
  match dictLookup d ("_id") with
  | some v => dictSet (d.eraseP (fun kv => decide (kv.1 = "_id"))) "id"
      (.text (pyStrOfBVal v))
  | none => d

/-- Applying `serialize` on a present document is the `_id` renaming followed
by the datetime pass (also on the empty, falsy document, where both
are the identity). -/
theorem serialize_some (d : Doc) :
    serialize (some d) = some ((serializeD1 d).map convertDT) := by
  cases d with
  | nil => rfl
  | cons kv d => rfl

/-- C7: `serialize` returns an absent document unchanged; otherwise
(for a document with unique keys, as Python dicts have) the result has
no `_id` key, carries the old `_id` value's string form under `id`,
converts every datetime value to its ISO text and leaves every other
field unchanged.  The source works on a copy (`d = dict(doc)`), so the
input is not mutated — inherent in this functional embedding. -/
theorem C7_serialize :
    serialize none = none ∧
    ∀ d : Doc, (d.map Prod.fst).Nodup →
      ∃ out : Doc, serialize (some d) = some out ∧
        (∀ kv ∈ out, kv.1 ≠ "_id") ∧
        (∀ v, dictLookup d ("_id") = some v →
          dictLookup out ("id") = some (.text (pyStrOfBVal v))) ∧
        (∀ k, k ≠ "_id" → k ≠ "id" →
          dictLookup out k = (dictLookup d k).map convVal) := by
  refine ⟨rfl, fun d hnd => ⟨(serializeD1 d).map convertDT, serialize_some d,
    ?_, ?_, ?_⟩⟩
  · intro kv hkv
    rcases List.mem_map.mp hkv with ⟨kv0, hkv0, heq⟩
    rw [← heq, convertDT_key]
    unfold serializeD1 at hkv0
    cases hid : dictLookup d ("_id") with
    | some v =>
      rw [hid] at hkv0
      rcases mem_dictSet _ _ _ kv0 hkv0 with hk | hk
      · rw [hk]; decide
      · exact eraseP_id_keys d hnd kv0 hk
    | none =>
      rw [hid] at hkv0
      have hfind : d.find? (fun kv => decide (kv.1 = "_id")) = none := by
        unfold dictLookup at hid
        exact Option.map_eq_none'.mp hid
      have := List.find?_eq_none.mp hfind kv0 hkv0
      simpa using this
  · intro v hv
    rw [dictLookup_map_convertDT]
    unfold serializeD1
    rw [hv, dictLookup_dictSet_self]
    rfl
  · intro k hk1 hk2
    rw [dictLookup_map_convertDT]
    unfold serializeD1
    cases hid : dictLookup d ("_id") with
    | some v => rw [dictLookup_dictSet_other _ _ _ _ hk2, dictLookup_eraseP_ne _ hk1]
    | none => rfl

/-- Witness for C7 on a three-field document. -/
theorem C7_serialize_witness :
    (([("_id", BVal.oid ("abc123")), ("created_at", BVal.dt 5),
       ("name", BVal.text ("x"))].map Prod.fst).Nodup) ∧
    ∃ out : Doc,
      serialize (some [("_id", BVal.oid ("abc123")), ("created_at", BVal.dt 5),
        ("name", BVal.text ("x"))]) = some out ∧
      (∀ kv ∈ out, kv.1 ≠ "_id") ∧
      (∀ v, dictLookup [("_id", BVal.oid ("abc123")), ("created_at", BVal.dt 5),
          ("name", BVal.text ("x"))] "_id" = some v →
        dictLookup out ("id") = some (.text (pyStrOfBVal v))) ∧
      (∀ k, k ≠ "_id" → k ≠ "id" →
        dictLookup out k =
          (dictLookup [("_id", BVal.oid ("abc123")), ("created_at", BVal.dt 5),
            ("name", BVal.text ("x"))] k).map convVal) :=
  ⟨by decide, C7_serialize.2 _ (by decide)⟩

/-! ## Shared machinery for the automation-engine claims -/

/-- One-step unfolding of `findById`. -/
theorem findById_cons (x : ProspectDoc) (l : List ProspectDoc) (j : Nat) :
    findById (x :: l) j = if x._id = j then some x else findById l j := by
  by_cases h : x._id = j
  · have e : List.find? (fun q : ProspectDoc => decide (q._id = j)) (x :: l) =
        some x :=
      List.find?_cons_of_pos _ (decide_eq_true h)
    rw [if_pos h]
    unfold findById
    rw [e]
  · have e : List.find? (fun q : ProspectDoc => decide (q._id = j)) (x :: l) =
        List.find? (fun q : ProspectDoc => decide (q._id = j)) l :=
      List.find?_cons_of_neg _ (by simpa using h)
    rw [if_neg h]
    unfold findById
    rw [e]

/-- Mongo `update_one` by id, looked up afterwards: the targeted id now
holds the updated first match, every other id is untouched (for
field updates that keep `_id`). -/
theorem findById_updateFirst (i : Nat) (f : ProspectDoc → ProspectDoc)
    (hf : ∀ x, (f x)._id = x._id) :
    ∀ (l : List ProspectDoc) (j : Nat),
      findById (updateFirst (fun q => decide (q._id = i)) f l) j =
        if j = i then (findById l i).map f else findById l j := by
  intro l
  induction l with
  | nil =>
    intro j
    by_cases hj : j = i
    · rw [if_pos hj]; rfl
    · rw [if_neg hj]; rfl
  | cons x xs ih =>
    intro j
    by_cases hx : x._id = i
    · have e : updateFirst (fun q => decide (q._id = i)) f (x :: xs) = f x :: xs := by
        simp [updateFirst, hx]
      rw [e]
      by_cases hj : j = i
      · rw [if_pos hj, findById_cons, findById_cons, if_pos hx,
          if_pos (by rw [hf, hx, hj])]
        rfl
      · rw [if_neg hj, findById_cons, findById_cons,
          if_neg (by rw [hf, hx]; exact fun he => hj he.symm),
          if_neg (by rw [hx]; exact fun he => hj he.symm)]
    · have e : updateFirst (fun q => decide (q._id = i)) f (x :: xs) =
          x :: updateFirst (fun q => decide (q._id = i)) f xs := by
        simp [updateFirst, hx]
      rw [e, findById_cons]
      by_cases hxj : x._id = j
      · have hj : ¬ (j = i) := by
          rw [← hxj]
          exact fun he => hx he
        rw [if_pos hxj, if_neg hj, findById_cons, if_pos hxj]
      · rw [if_neg hxj, ih j]
        by_cases hj : j = i
        · rw [if_pos hj, if_pos hj, findById_cons, if_neg (hj ▸ hxj)]
        · rw [if_neg hj, if_neg hj, findById_cons, if_neg hxj]

/-- An id-preserving `update_one` keeps the id column. -/
theorem map_id_updateFirst (pr : ProspectDoc → Bool)
    (f : ProspectDoc → ProspectDoc) (hf : ∀ x, (f x)._id = x._id) :
    ∀ l : List ProspectDoc,
      (updateFirst pr f l).map ProspectDoc._id = l.map ProspectDoc._id := by
  intro l
  induction l with
  | nil => rfl
  | cons x xs ih =>
    by_cases hx : pr x
    · simp [updateFirst, hx, hf]
    · simp [updateFirst, hx, ih]

/-- A phase's batch of id-preserving updates keeps the id column. -/
theorem map_id_applyUpdates (f : ProspectDoc → ProspectDoc)
    (hf : ∀ x, (f x)._id = x._id) :
    ∀ (sel ps : List ProspectDoc),
      (applyUpdates f sel ps).map ProspectDoc._id = ps.map ProspectDoc._id := by
  intro sel
  induction sel with
  | nil => intro ps; rfl
  | cons p rest ih =>
    intro ps
    show (applyUpdates f rest
        (updateFirst (fun q => decide (q._id = p._id)) f ps)).map ProspectDoc._id =
      ps.map ProspectDoc._id
    rw [ih, map_id_updateFirst _ f hf]

/-- With unique ids, a member is what its id finds. -/
theorem findById_of_mem :
    ∀ ps : List ProspectDoc, (ps.map ProspectDoc._id).Nodup →
      ∀ p ∈ ps, findById ps p._id = some p := by
  intro ps
  induction ps with
  | nil => intro _ p hp; simp at hp
  | cons x xs ih =>
    intro hnd p hp
    simp only [List.map_cons, List.nodup_cons] at hnd
    rcases List.mem_cons.mp hp with he | hp
    · rw [he, findById_cons, if_pos rfl]
    · have hne : ¬ (x._id = p._id) := by
        intro he
        exact hnd.1 (he ▸ List.mem_map.mpr ⟨p, hp, rfl⟩)
      rw [findById_cons, if_neg hne]
      exact ih hnd.2 p hp

/-- Ids not targeted by a batch of updates keep their lookup. -/
theorem findById_applyUpdates_not_mem (f : ProspectDoc → ProspectDoc)
    (hf : ∀ x, (f x)._id = x._id) :
    ∀ (sel ps : List ProspectDoc) (j : Nat), j ∉ sel.map ProspectDoc._id →
      findById (applyUpdates f sel ps) j = findById ps j := by
  intro sel
  induction sel with
  | nil => intro ps j _; rfl
  | cons p rest ih =>
    intro ps j hj
    simp only [List.map_cons, List.mem_cons, not_or] at hj
    show findById (applyUpdates f rest
        (updateFirst (fun q => decide (q._id = p._id)) f ps)) j = findById ps j
    rw [ih _ j (by simpa using hj.2), findById_updateFirst _ f hf,
      if_neg (fun he => hj.1 he)]

/-- A selected prospect's id finds exactly its updated document after
the batch (unique selected ids). -/
theorem findById_applyUpdates_mem (f : ProspectDoc → ProspectDoc)
    (hf : ∀ x, (f x)._id = x._id) :
    ∀ (sel ps : List ProspectDoc), (sel.map ProspectDoc._id).Nodup →
      ∀ p ∈ sel,
        findById (applyUpdates f sel ps) p._id = (findById ps p._id).map f := by
  intro sel
  induction sel with
  | nil => intro ps _ p hp; simp at hp
  | cons q rest ih =>
    intro ps hnd p hp
    simp only [List.map_cons, List.nodup_cons] at hnd
    show findById (applyUpdates f rest
        (updateFirst (fun s => decide (s._id = q._id)) f ps)) p._id =
      (findById ps p._id).map f
    rcases List.mem_cons.mp hp with he | hp
    · rw [he]
      rw [findById_applyUpdates_not_mem f hf rest _ q._id hnd.1,
        findById_updateFirst _ f hf, if_pos rfl]
    · have hne : ¬ (p._id = q._id) := by
        intro he
        exact hnd.1 (he ▸ List.mem_map.mpr ⟨p, hp, rfl⟩)
      rw [ih _ hnd.2 p hp, findById_updateFirst _ f hf, if_neg hne]

/-- Every document after an `update_one` is an old document or the
image of one. -/
theorem mem_updateFirst (pr : ProspectDoc → Bool) (f : ProspectDoc → ProspectDoc) :
    ∀ l : List ProspectDoc, ∀ x ∈ updateFirst pr f l,
      x ∈ l ∨ ∃ q, x = f q := by
  intro l
  induction l with
  | nil => intro x hx; simp [updateFirst] at hx
  | cons y ys ih =>
    intro x hx
    by_cases hy : pr y
    · have e : updateFirst pr f (y :: ys) = f y :: ys := by
        simp [updateFirst, hy]
      rw [e] at hx
      rcases List.mem_cons.mp hx with he | hx
      · right; exact ⟨y, he⟩
      · left; exact List.mem_cons_of_mem y hx
    · have e : updateFirst pr f (y :: ys) = y :: updateFirst pr f ys := by
        simp [updateFirst, hy]
      rw [e] at hx
      rcases List.mem_cons.mp hx with he | hx
      · left; exact he ▸ List.mem_cons_self y ys
      · rcases ih x hx with hm | hm
        · left; exact List.mem_cons_of_mem y hm
        · right; exact hm

/-- Every document after a batch of updates is an old document or the
image of one. -/
theorem mem_applyUpdates (f : ProspectDoc → ProspectDoc) :
    ∀ (sel ps : List ProspectDoc), ∀ x ∈ applyUpdates f sel ps,
      x ∈ ps ∨ ∃ q, x = f q := by
  intro sel
  induction sel with
  | nil => intro ps x hx; left; exact hx
  | cons p rest ih =>
    intro ps x hx
    rcases ih _ x hx with hm | hm
    · rcases mem_updateFirst _ f ps x hm with hm2 | hm2
      · left; exact hm2
      · right; exact hm2
    · right; exact hm

/-- One connection-loop iteration below the daily limit. -/
theorem connStep_eq (cid : String) (now : Int) (rand : Nat → Nat) (tmpl : Str)
    (dl : Nat) (db0 : DB) (p0 k0 : Nat) (p : ProspectDoc) (h : ¬ (dl ≤ p0)) :
    connStep cid now rand tmpl dl (db0, (p0, k0)) p =
      ({db0 with
          messagelogs := db0.messagelogs ++ [connLog cid now rand tmpl p k0],
          prospects := updateFirst (fun q => decide (q._id = p._id))
            (connUpdate now) db0.prospects},
       (p0 + 1, k0 + 1)) := by
  simp [connStep, h]

/-- The whole connection loop, described declaratively: when the
selection is within the daily limit (it always is, the query is
capped) the redundant break never fires, the selection's logs are
appended in order and its prospects updated. -/
theorem connFold (cid : String) (now : Int) (rand : Nat → Nat) (tmpl : Str)
    (dl : Nat) :
    ∀ (sel : List ProspectDoc) (db0 : DB) (p0 k0 : Nat), p0 + sel.length ≤ dl →
      sel.foldl (connStep cid now rand tmpl dl) (db0, (p0, k0)) =
        ({db0 with
            messagelogs := db0.messagelogs ++ mkConnLogs cid now rand tmpl k0 sel,
            prospects := applyUpdates (connUpdate now) sel db0.prospects},
         (p0 + sel.length, k0 + sel.length)) := by
  intro sel
  induction sel with
  | nil =>
    intro db0 p0 k0 _
    simp [mkConnLogs, applyUpdates]
  | cons p rest ih =>
    intro db0 p0 k0 h
    simp only [List.length_cons] at h
    have hg : ¬ (dl ≤ p0) := by omega
    rw [List.foldl_cons, connStep_eq cid now rand tmpl dl db0 p0 k0 p hg,
      ih _ (p0 + 1) (k0 + 1) (by omega)]
    refine Prod.ext ?_ ?_
    · simp [mkConnLogs, applyUpdates, List.append_assoc]
    · refine Prod.ext ?_ ?_
      · simp only [List.length_cons]
        omega
      · simp only [List.length_cons]
        omega

/-- One follow-up-loop iteration. -/
theorem fuStep_eq (cid : String) (now : Int) (rand : Nat → Nat) (tmpl : Str)
    (db0 : DB) (k0 : Nat) (p : ProspectDoc) :
    fuStep cid now rand tmpl (db0, k0) p =
      ({db0 with
          messagelogs := db0.messagelogs ++ [fuLog cid now rand tmpl p k0],
          prospects := updateFirst (fun q => decide (q._id = p._id))
            (fuUpdate now) db0.prospects},
       k0 + 1) := by
  simp [fuStep]

/-- The whole follow-up loop, described declaratively. -/
theorem fuFold (cid : String) (now : Int) (rand : Nat → Nat) (tmpl : Str) :
    ∀ (sel : List ProspectDoc) (db0 : DB) (k0 : Nat),
      sel.foldl (fuStep cid now rand tmpl) (db0, k0) =
        ({db0 with
            messagelogs := db0.messagelogs ++ mkFuLogs cid now rand tmpl k0 sel,
            prospects := applyUpdates (fuUpdate now) sel db0.prospects},
         k0 + sel.length) := by
  intro sel
  induction sel with
  | nil =>
    intro db0 k0
    simp [mkFuLogs, applyUpdates]
  | cons p rest ih =>
    intro db0 k0
    rw [List.foldl_cons, fuStep_eq cid now rand tmpl db0 k0 p, ih _ (k0 + 1)]
    refine Prod.ext ?_ ?_
    · simp [mkFuLogs, applyUpdates, List.append_assoc]
    · simp only [List.length_cons]
      omega

/-- The connection query never selects more than the daily limit. -/
theorem pendingSelection_length_le (db : DB) (cid : String) (dl : Nat) :
    (pendingSelection db cid dl).length ≤ dl := by
  simp only [pendingSelection, List.length_take]
  exact min_le_left _ _

/-- The follow-up query never selects more than the daily limit. -/
theorem followupSelection_length_le (db : DB) (cid : String) (now : Int)
    (dl : Nat) :
    (followupSelection db cid now dl).length ≤ dl := by
  simp only [followupSelection, List.length_take]
  exact min_le_left _ _

/-- Declarative form of the connection phase. -/
theorem automationPhase1_eq (db : DB) (cid : String) (now : Int)
    (rand : Nat → Nat) (tmpl : Str) (dl : Nat) :
    automationPhase1 db cid now rand tmpl dl =
      ({db with
          messagelogs := db.messagelogs ++
            mkConnLogs cid now rand tmpl 1 (pendingSelection db cid dl),
          prospects := applyUpdates (connUpdate now)
            (pendingSelection db cid dl) db.prospects},
       1 + (pendingSelection db cid dl).length) := by
  unfold automationPhase1
  show ((List.foldl (connStep cid now rand tmpl dl) (db, (0, 1))
          (pendingSelection db cid dl)).1,
        (List.foldl (connStep cid now rand tmpl dl) (db, (0, 1))
          (pendingSelection db cid dl)).2.2) = _
  rw [connFold cid now rand tmpl dl _ db 0 1
    (by simpa using pendingSelection_length_le db cid dl)]

/-- Declarative form of the follow-up phase. -/
theorem automationPhase2_eq (db : DB) (cid : String) (now : Int)
    (rand : Nat → Nat) (tmpl : Str) (dl : Nat) (k0 : Nat) :
    automationPhase2 db cid now rand tmpl dl k0 =
      {db with
        messagelogs := db.messagelogs ++
          mkFuLogs cid now rand tmpl k0 (followupSelection db cid now dl),
        prospects := applyUpdates (fuUpdate now)
          (followupSelection db cid now dl) db.prospects} := by
  unfold automationPhase2
  rw [fuFold cid now rand tmpl _ db k0]

/-- The connection selection is a sublist of the prospect
collection. -/
theorem pendingSelection_sublist (db : DB) (cid : String) (dl : Nat) :
    (pendingSelection db cid dl).Sublist db.prospects :=
  (List.take_sublist _ _).trans (List.filter_sublist _)

/-- The follow-up selection is a sublist of the prospect collection. -/
theorem followupSelection_sublist (db : DB) (cid : String) (now : Int)
    (dl : Nat) :
    (followupSelection db cid now dl).Sublist db.prospects :=
  (List.take_sublist _ _).trans (List.filter_sublist _)

/-- What membership in the connection selection means. -/
theorem mem_pendingSelection (db : DB) (cid : String) (dl : Nat)
    (p : ProspectDoc) (hp : p ∈ pendingSelection db cid dl) :
    p ∈ db.prospects ∧ p.campaign_id = cid ∧ p.status = "pending" := by
  have h1 := List.mem_of_mem_take hp
  have h2 := List.mem_filter.mp h1
  refine ⟨h2.1, ?_⟩
  exact of_decide_eq_true h2.2

/-- What membership in the follow-up selection means. -/
theorem mem_followupSelection (db : DB) (cid : String) (now : Int) (dl : Nat)
    (p : ProspectDoc) (hp : p ∈ followupSelection db cid now dl) :
    p ∈ db.prospects ∧ p.campaign_id = cid ∧ p.status = "requested" ∧
      lteGate p.last_action_at (now - 259200) = true := by
  have h1 := List.mem_of_mem_take hp
  have h2 := List.mem_filter.mp h1
  have h3 := h2.2
  simp only [Bool.and_eq_true, decide_eq_true_eq] at h3
  exact ⟨h2.1, h3.1.1, h3.1.2, h3.2⟩

/-- Unique prospect ids carry over to the connection selection. -/
theorem nodup_ids_pendingSelection (db : DB) (cid : String) (dl : Nat)
    (hN : (db.prospects.map ProspectDoc._id).Nodup) :
    ((pendingSelection db cid dl).map ProspectDoc._id).Nodup :=
  hN.sublist ((pendingSelection_sublist db cid dl).map _)

/-- Unique prospect ids carry over to the follow-up selection. -/
theorem nodup_ids_followupSelection (db : DB) (cid : String) (now : Int)
    (dl : Nat) (hN : (db.prospects.map ProspectDoc._id).Nodup) :
    ((followupSelection db cid now dl).map ProspectDoc._id).Nodup :=
  hN.sublist ((followupSelection_sublist db cid now dl).map _)

/-- Python `random.randint` stays in its range. -/
theorem pyRandint_range (r a b : Nat) (h : a ≤ b) :
    a ≤ pyRandint r a b ∧ pyRandint r a b ≤ b := by
  unfold pyRandint
  have hm : r % (b - a + 1) < b - a + 1 := Nat.mod_lt _ (by omega)
  omega

/-! ## Claim C1: the connection-request phase -/

/-- C1: in one engine run (unique prospect ids assumed, as Mongo
guarantees), the daily limit lies in `[10, 20]`; the connection phase
selects at most that many pending prospects of the campaign; it
appends, in selection order, one message log per selected prospect —
type `connection`, status `sent`, sent at the current time, scheduled
at the current time plus a 2-30 minute offset, content the connection
template rendered against the prospect — and updates each selected
prospect to status `requested` with last-action and update timestamps
set to the current time, touching no other prospect. -/
theorem C1_connection_phase (db : DB) (cid : String) (now : Int)
    (rand : Nat → Nat) (hN : (db.prospects.map ProspectDoc._id).Nodup) :
    (10 ≤ dailyLimitOf rand ∧ dailyLimitOf rand ≤ 20) ∧
    (pendingSelection db cid (dailyLimitOf rand)).length ≤ dailyLimitOf rand ∧
    (∀ p ∈ pendingSelection db cid (dailyLimitOf rand),
      p ∈ db.prospects ∧ p.campaign_id = cid ∧ p.status = "pending") ∧
    (automationPhase1 db cid now rand (connTemplateOf db cid)
        (dailyLimitOf rand)).1.messagelogs =
      db.messagelogs ++ mkConnLogs cid now rand (connTemplateOf db cid) 1
        (pendingSelection db cid (dailyLimitOf rand)) ∧
    (∀ (p : ProspectDoc) (k : Nat),
      (connLog cid now rand (connTemplateOf db cid) p k).campaign_id = cid ∧
      (connLog cid now rand (connTemplateOf db cid) p k).prospect_id = p._id ∧
      (connLog cid now rand (connTemplateOf db cid) p k).type = "connection" ∧
      (connLog cid now rand (connTemplateOf db cid) p k).status = "sent" ∧
      (connLog cid now rand (connTemplateOf db cid) p k).sent_at = now ∧
      (connLog cid now rand (connTemplateOf db cid) p k).content =
        render_template (connTemplateOf db cid) p.renderData ∧
      ∃ m : Nat, 2 ≤ m ∧ m ≤ 30 ∧
        (connLog cid now rand (connTemplateOf db cid) p k).scheduled_at =
          now + 60 * (m : Int)) ∧
    (∀ p ∈ pendingSelection db cid (dailyLimitOf rand),
      findById (automationPhase1 db cid now rand (connTemplateOf db cid)
          (dailyLimitOf rand)).1.prospects p._id = some (connUpdate now p) ∧
      (connUpdate now p).status = "requested" ∧
      (connUpdate now p).last_action_at = some now ∧
      (connUpdate now p).updated_at = now) ∧
    (∀ j : Nat,
      j ∉ (pendingSelection db cid (dailyLimitOf rand)).map ProspectDoc._id →
      findById (automationPhase1 db cid now rand (connTemplateOf db cid)
          (dailyLimitOf rand)).1.prospects j = findById db.prospects j) := by
  refine ⟨pyRandint_range (rand 0) 10 20 (by omega),
    pendingSelection_length_le db cid _,
    fun p hp => mem_pendingSelection db cid _ p hp, ?_, ?_, ?_, ?_⟩
  · simp only [automationPhase1_eq]
  · intro p k
    refine ⟨rfl, rfl, rfl, rfl, rfl, rfl,
      ⟨pyRandint (rand k) 2 30,
       (pyRandint_range (rand k) 2 30 (by omega)).1,
       (pyRandint_range (rand k) 2 30 (by omega)).2, rfl⟩⟩
  · intro p hp
    refine ⟨?_, rfl, rfl, rfl⟩
    simp only [automationPhase1_eq]
    rw [findById_applyUpdates_mem (connUpdate now) (fun _ => rfl) _ _
        (nodup_ids_pendingSelection db cid _ hN) p hp,
      findById_of_mem db.prospects hN p (mem_pendingSelection db cid _ p hp).1]
    rfl
  · intro j hj
    simp only [automationPhase1_eq]
    exact findById_applyUpdates_not_mem (connUpdate now) (fun _ => rfl) _ _ j hj

/-- Witness for C1 on the empty store: the daily-limit bounds hold. -/
theorem C1_connection_phase_witness :
    (((DB.mk [] [] [] [] []).prospects.map ProspectDoc._id).Nodup) ∧
    (10 ≤ dailyLimitOf (fun _ => 0) ∧ dailyLimitOf (fun _ => 0) ≤ 20) :=
  ⟨by decide,
    (C1_connection_phase (DB.mk [] [] [] [] []) "c1" 0 (fun _ => 0)
      (by decide)).1⟩

/-! ## Claim C2: the follow-up phase -/

/-- Unfolding: `process_automation` is phase 1 then phase 2 on the updated
store. -/
theorem process_automation_eq (db : DB) (cid : String) (now : Int)
    (rand : Nat → Nat) :
    process_automation db cid now rand =
      automationPhase2
        (automationPhase1 db cid now rand (connTemplateOf db cid)
          (dailyLimitOf rand)).1
        cid now rand (followupTemplateOf db cid) (dailyLimitOf rand)
        (automationPhase1 db cid now rand (connTemplateOf db cid)
          (dailyLimitOf rand)).2 := rfl

/-- A non-pending prospect's id is never in the connection
selection. -/
theorem not_mem_pending_ids (db : DB) (cid : String) (dl : Nat)
    (hN : (db.prospects.map ProspectDoc._id).Nodup) (p : ProspectDoc)
    (hp : p ∈ db.prospects) (hst : ¬ p.status = "pending") :
    p._id ∉ (pendingSelection db cid dl).map ProspectDoc._id := by
  intro hmem
  rcases List.mem_map.mp hmem with ⟨s, hs, hid⟩
  have hsmem := mem_pendingSelection db cid dl s hs
  have he : s = p := List.inj_on_of_nodup_map hN hsmem.1 hp hid
  exact hst (he ▸ hsmem.2.2)

/-- The connection phase leaves every non-pending prospect document
untouched. -/
theorem phase1_keeps_nonpending (db : DB) (cid : String) (now : Int)
    (rand : Nat → Nat) (hN : (db.prospects.map ProspectDoc._id).Nodup)
    (p : ProspectDoc) (hp : p ∈ db.prospects) (hst : ¬ p.status = "pending") :
    findById (automationPhase1 db cid now rand (connTemplateOf db cid)
        (dailyLimitOf rand)).1.prospects p._id = some p := by
  simp only [automationPhase1_eq]
  rw [findById_applyUpdates_not_mem (connUpdate now) (fun _ => rfl) _ _ _
    (not_mem_pending_ids db cid _ hN p hp hst)]
  exact findById_of_mem db.prospects hN p hp

/-- Unique prospect ids survive the connection phase. -/
theorem nodup_ids_phase1 (db : DB) (cid : String) (now : Int)
    (rand : Nat → Nat) (tmpl : Str) (dl : Nat)
    (hN : (db.prospects.map ProspectDoc._id).Nodup) :
    ((automationPhase1 db cid now rand tmpl dl).1.prospects.map
      ProspectDoc._id).Nodup := by
  simp only [automationPhase1_eq]
  rw [map_id_applyUpdates (connUpdate now) (fun _ => rfl)]
  exact hN

/-- C2: in one engine run (unique prospect ids assumed), a prospect of
the campaign in status `requested` whose last action is strictly less
than 3 days old is never selected by the follow-up phase; one whose
last action is 3 days old or older matches the follow-up query (it is
eligible); and every selected prospect receives one `followup`/`sent`
message log and is updated to status `followed_up`. -/
theorem C2_followup_phase (db : DB) (cid : String) (now : Int)
    (rand : Nat → Nat) (hN : (db.prospects.map ProspectDoc._id).Nodup) :
    (∀ p ∈ db.prospects, p.campaign_id = cid → p.status = "requested" →
      (∀ t : Int, p.last_action_at = some t → now - 259200 < t) →
      ∀ q ∈ followupSelection
          (automationPhase1 db cid now rand (connTemplateOf db cid)
            (dailyLimitOf rand)).1 cid now (dailyLimitOf rand),
        q._id ≠ p._id) ∧
    (∀ p ∈ db.prospects, p.campaign_id = cid → p.status = "requested" →
      (∃ t : Int, p.last_action_at = some t ∧ t ≤ now - 259200) →
      p ∈ followupCandidates
        (automationPhase1 db cid now rand (connTemplateOf db cid)
          (dailyLimitOf rand)).1 cid now) ∧
    (process_automation db cid now rand).messagelogs =
      (automationPhase1 db cid now rand (connTemplateOf db cid)
        (dailyLimitOf rand)).1.messagelogs ++
      mkFuLogs cid now rand (followupTemplateOf db cid)
        (automationPhase1 db cid now rand (connTemplateOf db cid)
          (dailyLimitOf rand)).2
        (followupSelection
          (automationPhase1 db cid now rand (connTemplateOf db cid)
            (dailyLimitOf rand)).1 cid now (dailyLimitOf rand)) ∧
    (∀ (p : ProspectDoc) (k : Nat),
      (fuLog cid now rand (followupTemplateOf db cid) p k).type = "followup" ∧
      (fuLog cid now rand (followupTemplateOf db cid) p k).status = "sent" ∧
      (fuLog cid now rand (followupTemplateOf db cid) p k).prospect_id = p._id) ∧
    (∀ p ∈ followupSelection
        (automationPhase1 db cid now rand (connTemplateOf db cid)
          (dailyLimitOf rand)).1 cid now (dailyLimitOf rand),
      findById (process_automation db cid now rand).prospects p._id =
        some (fuUpdate now p) ∧
      (fuUpdate now p).status = "followed_up" ∧
      (fuUpdate now p).last_action_at = some now ∧
      (fuUpdate now p).updated_at = now) := by
  have hN1 : ((automationPhase1 db cid now rand (connTemplateOf db cid)
      (dailyLimitOf rand)).1.prospects.map ProspectDoc._id).Nodup :=
    nodup_ids_phase1 db cid now rand _ _ hN
  refine ⟨?_, ?_, ?_, ?_, ?_⟩
  · intro p hp hc hs hrec q hq hid
    have hq2 := mem_followupSelection _ cid now _ q hq
    have hfp : findById (automationPhase1 db cid now rand (connTemplateOf db cid)
        (dailyLimitOf rand)).1.prospects p._id = some p :=
      phase1_keeps_nonpending db cid now rand hN p hp
        (by rw [hs]; decide)
    have hfq := findById_of_mem _ hN1 q hq2.1
    rw [hid, hfp] at hfq
    have hqp : q = p := Option.some.inj hfq.symm
    have hgate := hq2.2.2.2
    rw [hqp] at hgate
    cases hla : p.last_action_at with
    | none => rw [hla] at hgate; cases hgate
    | some t =>
      rw [hla] at hgate
      have ht : t ≤ now - 259200 := of_decide_eq_true hgate
      have := hrec t hla
      omega
  · intro p hp hc hs hold
    rcases hold with ⟨t, hla, ht⟩
    have hfp : findById (automationPhase1 db cid now rand (connTemplateOf db cid)
        (dailyLimitOf rand)).1.prospects p._id = some p :=
      phase1_keeps_nonpending db cid now rand hN p hp
        (by rw [hs]; decide)
    have hmem1 : p ∈ (automationPhase1 db cid now rand (connTemplateOf db cid)
        (dailyLimitOf rand)).1.prospects :=
      List.mem_of_find?_eq_some hfp
    refine List.mem_filter.mpr ⟨hmem1, ?_⟩
    simp [hc, hs, lteGate, hla, ht]
  · simp only [process_automation_eq, automationPhase2_eq]
  · intro p k
    exact ⟨rfl, rfl, rfl⟩
  · intro p hp
    refine ⟨?_, rfl, rfl, rfl⟩
    simp only [process_automation_eq, automationPhase2_eq]
    rw [findById_applyUpdates_mem (fuUpdate now) (fun _ => rfl) _ _
        (nodup_ids_followupSelection _ cid now _ hN1) p hp,
      findById_of_mem _ hN1 p (mem_followupSelection _ cid now _ p hp).1]
    rfl

/-- Witness for C2 on the empty store: all selection statements hold
vacuously, packaged through the theorem itself. -/
theorem C2_followup_phase_witness :
    (((DB.mk [] [] [] [] []).prospects.map ProspectDoc._id).Nodup) ∧
    (∀ (p : ProspectDoc) (k : Nat),
      (fuLog ("c1") 0 (fun _ => 0)
        (followupTemplateOf (DB.mk [] [] [] [] []) "c1") p k).type = "followup" ∧
      (fuLog ("c1") 0 (fun _ => 0)
        (followupTemplateOf (DB.mk [] [] [] [] []) "c1") p k).status = "sent" ∧
      (fuLog ("c1") 0 (fun _ => 0)
        (followupTemplateOf (DB.mk [] [] [] [] []) "c1") p k).prospect_id =
        p._id) :=
  ⟨by decide,
    (C2_followup_phase (DB.mk [] [] [] [] []) "c1" 0 (fun _ => 0)
      (by decide)).2.2.2.1⟩

/-! ## Claim C9: at most one message log per prospect and run -/

/-- The connection logs reference exactly the selected prospects, in
order. -/
theorem mkConnLogs_map_pid (cid : String) (now : Int) (rand : Nat → Nat)
    (tmpl : Str) :
    ∀ (sel : List ProspectDoc) (k : Nat),
      (mkConnLogs cid now rand tmpl k sel).map MessageLogDoc.prospect_id =
        sel.map ProspectDoc._id := by
  intro sel
  induction sel with
  | nil => intro k; rfl
  | cons p rest ih =>
    intro k
    simp only [mkConnLogs, List.map_cons, ih]
    rfl

/-- The follow-up logs reference exactly the selected prospects, in
order. -/
theorem mkFuLogs_map_pid (cid : String) (now : Int) (rand : Nat → Nat)
    (tmpl : Str) :
    ∀ (sel : List ProspectDoc) (k : Nat),
      (mkFuLogs cid now rand tmpl k sel).map MessageLogDoc.prospect_id =
        sel.map ProspectDoc._id := by
  intro sel
  induction sel with
  | nil => intro k; rfl
  | cons p rest ih =>
    intro k
    simp only [mkFuLogs, List.map_cons, ih]
    rfl

/-- C9: within a single run (unique prospect ids assumed), a prospect
selected by the connection phase is never selected by the follow-up
phase of the same run — its last-action timestamp was just set to the
current time, which fails the 3-days-old requirement — and hence the
run's new message logs reference pairwise distinct prospects: at most
one log per prospect per run. -/
theorem C9_one_log_per_prospect (db : DB) (cid : String) (now : Int)
    (rand : Nat → Nat) (hN : (db.prospects.map ProspectDoc._id).Nodup) :
    (∀ p ∈ pendingSelection db cid (dailyLimitOf rand),
      ∀ q ∈ followupSelection
          (automationPhase1 db cid now rand (connTemplateOf db cid)
            (dailyLimitOf rand)).1 cid now (dailyLimitOf rand),
        q._id ≠ p._id) ∧
    (((process_automation db cid now rand).messagelogs.drop
        db.messagelogs.length).map MessageLogDoc.prospect_id).Nodup := by
  have hN1 : ((automationPhase1 db cid now rand (connTemplateOf db cid)
      (dailyLimitOf rand)).1.prospects.map ProspectDoc._id).Nodup :=
    nodup_ids_phase1 db cid now rand _ _ hN
  have hdisj : ∀ p ∈ pendingSelection db cid (dailyLimitOf rand),
      ∀ q ∈ followupSelection
          (automationPhase1 db cid now rand (connTemplateOf db cid)
            (dailyLimitOf rand)).1 cid now (dailyLimitOf rand),
        q._id ≠ p._id := by
    intro p hp q hq hid
    have hupd : findById (automationPhase1 db cid now rand (connTemplateOf db cid)
        (dailyLimitOf rand)).1.prospects p._id = some (connUpdate now p) := by
      simp only [automationPhase1_eq]
      rw [findById_applyUpdates_mem (connUpdate now) (fun _ => rfl) _ _
          (nodup_ids_pendingSelection db cid _ hN) p hp,
        findById_of_mem db.prospects hN p (mem_pendingSelection db cid _ p hp).1]
      rfl
    have hq2 := mem_followupSelection _ cid now _ q hq
    have hfq := findById_of_mem _ hN1 q hq2.1
    rw [hid, hupd] at hfq
    have hqe : q = connUpdate now p := Option.some.inj hfq.symm
    have hgate := hq2.2.2.2
    rw [hqe] at hgate
    have : now ≤ now - 259200 := of_decide_eq_true hgate
    omega
  refine ⟨hdisj, ?_⟩
  have hml : (process_automation db cid now rand).messagelogs =
      db.messagelogs ++
        (mkConnLogs cid now rand (connTemplateOf db cid) 1
            (pendingSelection db cid (dailyLimitOf rand)) ++
          mkFuLogs cid now rand (followupTemplateOf db cid)
            (automationPhase1 db cid now rand (connTemplateOf db cid)
              (dailyLimitOf rand)).2
            (followupSelection
              (automationPhase1 db cid now rand (connTemplateOf db cid)
                (dailyLimitOf rand)).1 cid now (dailyLimitOf rand))) := by
    conv_lhs => rw [process_automation_eq, automationPhase2_eq]
    simp only [automationPhase1_eq, List.append_assoc]
  rw [hml, List.drop_left, List.map_append, mkConnLogs_map_pid, mkFuLogs_map_pid]
  refine List.Nodup.append (nodup_ids_pendingSelection db cid _ hN)
    (nodup_ids_followupSelection _ cid now _ hN1) ?_
  intro a ha hb
  rcases List.mem_map.mp ha with ⟨p, hp, hpa⟩
  rcases List.mem_map.mp hb with ⟨q, hq, hqa⟩
  exact hdisj p hp q hq (hqa.trans hpa.symm)

/-- Witness for C9 on the empty store. -/
theorem C9_one_log_per_prospect_witness :
    (((DB.mk [] [] [] [] []).prospects.map ProspectDoc._id).Nodup) ∧
    (((process_automation (DB.mk [] [] [] [] []) "c1" 0
        (fun _ => 0)).messagelogs.drop
          (DB.mk [] [] [] [] []).messagelogs.length).map
        MessageLogDoc.prospect_id).Nodup :=
  ⟨by decide,
    (C9_one_log_per_prospect (DB.mk [] [] [] [] []) "c1" 0 (fun _ => 0)
      (by decide)).2⟩

/-! ## Claim C8: prospect statuses ever written -/

/-- C8: after any single operation of the system, every prospect
status present in the store is `pending`, `requested` or `followed_up`
unless it was already present before the operation — so no code path
ever writes `accepted`, `replied` or `stopped` (prospects created by
the search are `pending`; the engine writes only `requested` and
`followed_up`; nothing else writes prospects). -/
theorem C8_prospect_status_writes (db db' : DB) (hstep : Step db db') :
    ∀ p ∈ db'.prospects,
      p.status = "pending" ∨ p.status = "requested" ∨
      p.status = "followed_up" ∨ ∃ q ∈ db.prospects, q.status = p.status := by
  intro p hp
  cases hstep with
  | createCampaign name description now newId =>
    exact Or.inr (Or.inr (Or.inr ⟨p, hp, rfl⟩))
  | uploadCompanies cid content_type rows now dbx n h =>
    unfold upload_companies at h
    by_cases hct : ¬(content_type = "text/csv" ∨
        content_type = "application/vnd.ms-excel" ∨
        content_type = "application/csv")
    · rw [if_pos hct] at h
      simp at h
    · rw [if_neg hct, upload_fold] at h
      have h1 := Except.ok.inj h
      have h2 : db' = {db with companies := (db.companies ++
          (rows.filter keepRow).map (rowToCompany cid now))} :=
        (congrArg Prod.fst h1).symm
      subst h2
      exact Or.inr (Or.inr (Or.inr ⟨p, hp, rfl⟩))
  | uploadCompaniesRejected cid content_type rows now e h =>
    exact Or.inr (Or.inr (Or.inr ⟨p, hp, rfl⟩))
  | upsertTemplates cid ct ft now =>
    exact Or.inr (Or.inr (Or.inr ⟨p, hp, rfl⟩))
  | searchProspects cid jt now rand idsrc dbx n h =>
    simp only [search_and_create_prospects] at h
    by_cases hie : (campaignCompanies db cid).isEmpty
    · rw [if_pos hie] at h
      simp at h
    · rw [if_neg hie] at h
      have h1 := Except.ok.inj h
      have h2 : db' = {db with prospects := (db.prospects ++
          searchGo cid jt now rand idsrc (campaignCompanies db cid) 0)} :=
        (congrArg Prod.fst h1).symm
      subst h2
      rcases List.mem_append.mp hp with hm | hm
      · exact Or.inr (Or.inr (Or.inr ⟨p, hm, rfl⟩))
      · exact Or.inl (searchGo_mem cid jt now rand idsrc _ 0 p hm).1
  | searchProspectsRejected cid jt now rand idsrc e h =>
    exact Or.inr (Or.inr (Or.inr ⟨p, hp, rfl⟩))
  | automation cid now rand =>
    simp only [process_automation_eq, automationPhase2_eq,
      automationPhase1_eq] at hp
    rcases mem_applyUpdates _ _ _ p hp with hm | ⟨q, hq⟩
    · rcases mem_applyUpdates _ _ _ p hm with hm2 | ⟨q, hq⟩
      · exact Or.inr (Or.inr (Or.inr ⟨p, hm2, rfl⟩))
      · exact Or.inr (Or.inl (by rw [hq]; rfl))
    · exact Or.inr (Or.inr (Or.inl (by rw [hq]; rfl)))
  | listCampaigns => exact Or.inr (Or.inr (Or.inr ⟨p, hp, rfl⟩))
  | listCompanies cid => exact Or.inr (Or.inr (Or.inr ⟨p, hp, rfl⟩))
  | getTemplates cid => exact Or.inr (Or.inr (Or.inr ⟨p, hp, rfl⟩))
  | listProspects cid => exact Or.inr (Or.inr (Or.inr ⟨p, hp, rfl⟩))
  | campaignStats cid => exact Or.inr (Or.inr (Or.inr ⟨p, hp, rfl⟩))
  | inboxRead => exact Or.inr (Or.inr (Or.inr ⟨p, hp, rfl⟩))
  | staticRoute => exact Or.inr (Or.inr (Or.inr ⟨p, hp, rfl⟩))

/-- Witness for C8: a concrete step on the empty store. -/
theorem C8_prospect_status_writes_witness :
    Step (DB.mk [] [] [] [] []) (DB.mk [] [] [] [] []) ∧
    (∀ p ∈ (DB.mk [] [] [] [] [] : DB).prospects,
      p.status = "pending" ∨ p.status = "requested" ∨
      p.status = "followed_up" ∨
      ∃ q ∈ (DB.mk [] [] [] [] [] : DB).prospects, q.status = p.status) :=
  ⟨Step.staticRoute _,
    C8_prospect_status_writes (DB.mk [] [] [] [] []) (DB.mk [] [] [] [] [])
      (Step.staticRoute _)⟩

end LeadAuto
